import Mathlib

/-!
# gin-sessions: request-scoped session registry and MySQL-backed store

A shallow embedding of `sessions.go`, `cookie.go`, `options.go`, `store.go` and
`stores/mysqlstore/mysql.go`, followed by theorems about the embedded code.

Conventions of the embedding

* A Go `error` is `Option String`: `none` is `nil`, `some msg` an error whose
  `Error()` text is `msg`.
* A `*Session` is `Option Ptr`: `none` is the nil pointer.  Dereferencing it is
  a run-time panic, modelled by `Except Panic`; nothing in the repository
  recovers from a panic, so a panic ends the call it happens in and its callers.
* Go maps are association lists read through their first matching entry; a
  `for ... range` loop visits the list in order, so quantifying over every
  list covers every iteration order.
* `time.Time` is an integer number of nanoseconds, `time.Duration` a signed
  64-bit number of nanoseconds with wrap-around multiplication.
-/

namespace Sessions

/-- Run-time panics of the Go program that the embedding tracks. -/
inductive Panic where
  | nilDereference
  | typeAssertion
  deriving DecidableEq, Repr

/-- Address of a `Session` object. -/
abbrev Ptr := Nat

/-- Identity of a value of interface type `Store`. -/
abbrev StoreId := Nat

/-! ## `MultiError` (sessions.go, lines 127-148) -/

/-- Go `type MultiError []error`. -/
abbrev MultiError := List (Option String)

/-- The `for _, e := range m` loop of `MultiError.Error`, started from the
current values of `s` and `n`. -/
def MultiError.scan : MultiError → String → Nat → String × Nat
  | [], s, n => (s, n)
  | none :: rest, s, n => MultiError.scan rest s n
  | some e :: rest, s, n => MultiError.scan rest (if n = 0 then e else s) (n + 1)

/-- Go `func (m MultiError) Error() string`. -/
def MultiError.Error (m : MultiError) : String :=
  match MultiError.scan m "" 0 with
  | (_, 0) => "(0 errors)"
  | (s, 1) => s
  | (s, 2) => s ++ " (and 1 other error)"
  | (s, n) => s ++ " (and " ++ toString (n - 1) ++ " other errors)"

/-! ## Registry (sessions.go, lines 45-101) -/

/-- The unexported fields `store` and `name` of a `Session`.  Only package
`sessions` can write them, so they are kept apart from the world that store
implementations act on. -/
structure Priv where
  store : Option StoreId
  name : String
  deriving DecidableEq, Repr

/-- Behaviour of a `Store` implementation as far as the registry calls it.
`W` is everything the implementation can change (exported session fields,
database, request, response); the unexported session fields are readable
through the accessors `Name()` and `Store()` only.  A call either returns or
panics.  Calls that re-enter the registry they are made from are not covered:
a store acts on `W` alone. -/
structure Store (W : Type) where
  New : (Ptr → Priv) → W → String → Except Panic (W × Option Ptr × Option String)
  Save : (Ptr → Priv) → W → Ptr → Except Panic (W × Option String)

/-- Go `type sessionInfo struct { s *Session; err error }`. -/
structure sessionInfo where
  s : Option Ptr
  err : Option String
  deriving DecidableEq, Repr

/-- Record of a call into a store, kept for stating which calls were made.
A `Save` call is recorded with the error it returned or the panic it ended
in. -/
inductive Call where
  | New (store : StoreId) (name : String)
  | Save (store : StoreId) (session : Ptr) (result : Except Panic (Option String))

/-- A registry together with the state it runs in: the `sessions` map of the
`Registry`, the unexported fields of every session object, the world of the
stores, and the calls made into stores so far. -/
structure State (W : Type) where
  sessions : List (String × sessionInfo)
  priv : Ptr → Priv
  world : W
  calls : List Call

/-- Go `s.sessions[name] = info`. -/
def mapSet (m : List (String × sessionInfo)) (name : String) (info : sessionInfo) :
    List (String × sessionInfo) :=
  (name, info) :: m.filter (fun e => e.1 != name)

/-- Go `session.name = name`. -/
def setName (priv : Ptr → Priv) (session : Option Ptr) (name : String) :
    Except Panic (Ptr → Priv) :=
  match session with
  | none => .error .nilDereference
  | some p => .ok (Function.update priv p { store := (priv p).store, name := name })

/-- Go `session.store = store`. -/
def setStore (priv : Ptr → Priv) (session : Option Ptr) (store : StoreId) :
    Except Panic (Ptr → Priv) :=
  match session with
  | none => .error .nilDereference
  | some p => .ok (Function.update priv p { store := some store, name := (priv p).name })

/-- Go `func (s *Registry) Get(store Store, name string) (*Session, error)`.
`isCookieNameValid` is not part of the sources at hand and is a parameter;
`impl` gives the behaviour of each store value. -/
def Registry.Get {W : Type} (isCookieNameValid : String → Bool) (impl : StoreId → Store W)
    (st : State W) (store : StoreId) (name : String) :
    Except Panic (State W × Option Ptr × Option String) :=
  if !isCookieNameValid name then
    .ok (st, none, some ("gin-sessions: invalid character in cookie name: " ++ name))
  else
    match st.sessions.lookup name with
    | some info =>
      match setStore st.priv info.s store with
      | .error p => .error p
      | .ok priv => .ok ({ st with priv := priv }, info.s, info.err)
    | none =>
      match (impl store).New st.priv st.world name with
      | .error p => .error p
      | .ok (world, session, err) =>
        match setName st.priv session name with
        | .error p => .error p
        | .ok priv1 =>
          match setStore priv1 session store with
          | .error p => .error p
          | .ok priv2 =>
            .ok ({ sessions := mapSet st.sessions name { s := session, err := err },
                   priv := priv2,
                   world := world,
                   calls := st.calls ++ [Call.New store name] }, session, err)

/-- The `for name, info := range s.sessions` loop of `Registry.Save` over the
entries still to visit.  `quote` is the `%q` verb of package `fmt`.  There is
no `recover`: a panic, of the loop itself or of a store, ends the loop; it is
returned with the calls made up to it. -/
def Registry.saveLoop {W : Type} (quote : String → String) (impl : StoreId → Store W)
    (priv : Ptr → Priv) :
    List (String × sessionInfo) → W → List Call → MultiError →
      Except (Panic × List Call) (W × List Call × MultiError)
  | [], world, calls, errMulti => .ok (world, calls, errMulti)
  | (name, info) :: rest, world, calls, errMulti =>
    match info.s with
    | none => .error (Panic.nilDereference, calls)
    | some session =>
      match (priv session).store with
      | none =>
        Registry.saveLoop quote impl priv rest world calls
          (errMulti ++ [some ("gin-sessions: missing store for session " ++ quote name)])
      | some store =>
        match (impl store).Save priv world session with
        | .error p => .error (p, calls ++ [Call.Save store session (.error p)])
        | .ok (world1, some err) =>
          Registry.saveLoop quote impl priv rest world1
            (calls ++ [Call.Save store session (.ok (some err))])
            (errMulti ++ [some ("gin-sessions: error saving session " ++ quote name
              ++ " -- " ++ err)])
        | .ok (world1, none) =>
          Registry.saveLoop quote impl priv rest world1
            (calls ++ [Call.Save store session (.ok none)]) errMulti

/-- Go `func (s *Registry) Save(c *gin.Context) error`; the returned error is
the `MultiError` itself. -/
def Registry.Save {W : Type} (quote : String → String) (impl : StoreId → Store W)
    (st : State W) : Except (Panic × List Call) (State W × Option MultiError) :=
  match Registry.saveLoop quote impl st.priv st.sessions st.world st.calls [] with
  | .error p => .error p
  | .ok (world, calls, errMulti) =>
    .ok ({ st with world := world, calls := calls },
         if errMulti ≠ [] then some errMulti else none)

/-- The cache entries whose session has a store, as `(store, session)` pairs in
iteration order: the calls `Registry.Save` is expected to make. -/
def pending (priv : Ptr → Priv) (entries : List (String × sessionInfo)) :
    List (StoreId × Ptr) :=
  entries.filterMap fun e =>
    match e.2.s with
    | none => none
    | some p =>
      match (priv p).store with
      | none => none
      | some store => some (store, p)

/-- The `Save` calls on the given `(store, session)` pairs, one after the
other, each starting in the world the one before it left: the final world and
the error each call returned, in order, or the first panic. -/
def runSaves {W : Type} (impl : StoreId → Store W) (priv : Ptr → Priv) :
    List (StoreId × Ptr) → W → Except Panic (W × List (Option String))
  | [], world => .ok (world, [])
  | (store, session) :: rest, world =>
    match (impl store).Save priv world session with
    | .error p => .error p
    | .ok (world1, err) =>
      match runSaves impl priv rest world1 with
      | .error p => .error p
      | .ok (world2, errs) => .ok (world2, err :: errs)

/-! ### Small concrete stores used to instantiate the theorems -/

/-- A store over a world that counts allocated sessions: `New` hands out the
next address without error, `Save` fails on odd addresses. -/
def counterStore : Store Nat where
  New := fun _ w _ => .ok (w + 1, some w, none)
  Save := fun _ w p => .ok (w, if p % 2 = 1 then some "save failed" else none)

/-- A store whose `New` reports an error and returns a nil session. -/
def nilStore : Store Nat where
  New := fun _ w _ => .ok (w, none, some "no session")
  Save := fun _ w _ => .ok (w, none)

/-- Store `0` is `nilStore`, every other store is `counterStore`. -/
def demoImpl : StoreId → Store Nat
  | 0 => nilStore
  | _ => counterStore

/-- A fresh registry: nothing cached, no session has a store or a name. -/
def emptyState : State Nat where
  sessions := []
  priv := fun _ => { store := none, name := "" }
  world := 0
  calls := []

end Sessions

namespace Sessions

/-! ## Time, cookies and sessions (sessions.go, cookie.go, options.go) -/

/-- Go `time.Time`: an instant, in nanoseconds since the Unix epoch. -/
abbrev Time := Int

/-- Smallest value of a `time.Duration` (signed 64-bit nanoseconds). -/
def minDuration : Int := -9223372036854775808

/-- Largest value of a `time.Duration`. -/
def maxDuration : Int := 9223372036854775807

/-- Reduction of an integer to the signed 64-bit value Go computes. -/
def wrap64 (x : Int) : Int :=
  (x + 9223372036854775808) % 18446744073709551616 - 9223372036854775808

/-- Go `time.Second * time.Duration(maxAge)`: a multiplication of `int64`
values, which wraps around. -/
def secondsDuration (maxAge : Int) : Int := wrap64 (1000000000 * maxAge)

/-- Go `t.Add(d)`. -/
def timeAdd (t : Time) (d : Int) : Time := t + d

/-- Go `t.Sub(u)`: the difference as a `time.Duration`, saturating at the
smallest and largest duration. -/
def timeSub (t u : Time) : Int :=
  if t - u < minDuration then minDuration
  else if maxDuration < t - u then maxDuration
  else t - u

/-- The wall clock: `reading i` is what the `i`-th call of `time.Now()`
returns, `tick` counts the calls made so far. -/
structure Clock where
  reading : Nat → Time
  tick : Nat

/-- Go `time.Now()`. -/
def Clock.now (c : Clock) : Time × Clock :=
  (c.reading c.tick, { reading := c.reading, tick := c.tick + 1 })

/-- Go `type Options struct` (options.go). -/
structure Options where
  Path : String
  Domain : String
  MaxAge : Int
  Secure : Bool
  HttpOnly : Bool
  deriving DecidableEq, Repr

/-- Go `http.Cookie`, with the fields this repository sets.  `Expires = none`
is the zero time: no `Expires` attribute. -/
structure Cookie where
  Name : String
  Value : String
  Path : String
  Domain : String
  MaxAge : Int
  Secure : Bool
  HttpOnly : Bool
  Expires : Option Time
  deriving DecidableEq, Repr

/-- The part of a `gin.Context` the sessions use, with the library functions
its methods rely on.  `request` gives the raw value of each cookie of the
request; `response` lists the cookies set on the response, oldest first.
`queryEscape` is `url.QueryEscape`, `queryUnescape` the string returned by
`url.QueryUnescape` (empty when it fails), and `validCookieName` the name check
of `net/http`, which writes no `Set-Cookie` header for a cookie whose name
fails it. -/
structure Context where
  request : String → Option String
  response : List Cookie
  queryEscape : String → String
  queryUnescape : String → String
  validCookieName : String → Bool

/-- The method `Cookie(name)` of `gin.Context`: the unescaped value of the
request cookie, `none` when the request has no such cookie. -/
def Context.Cookie (c : Context) (name : String) : Option String :=
  match c.request name with
  | none => none
  | some value => some (c.queryUnescape value)

/-- The method `SetCookie(name, value, maxAge, path, domain, secure, httpOnly)`
of `gin.Context`: an empty path becomes `/`, the value is query-escaped, and
the cookie made of the seven arguments goes to `http.SetCookie`, which adds it
to the response when its name is valid.  The method takes no expiry time, so
the cookie it builds has none. -/
def Context.SetCookie (c : Context) (name value : String) (maxAge : Int)
    (path domain : String) (secure httpOnly : Bool) : Context :=
  let cookie : Sessions.Cookie :=
    { Name := name, Value := c.queryEscape value, Path := if path = "" then "/" else path,
      Domain := domain, MaxAge := maxAge, Secure := secure, HttpOnly := httpOnly,
      Expires := none }
  if c.validCookieName name then
    { request := c.request, response := c.response ++ [cookie],
      queryEscape := c.queryEscape, queryUnescape := c.queryUnescape,
      validCookieName := c.validCookieName }
  else c

/-- Keys of the `Values` map, a `map[interface{}]interface{}`. -/
inductive Key where
  | str (s : String)
  | int (n : Int)
  deriving DecidableEq, Repr

/-- Values of the `Values` map: `nil`, a `time.Time`, or other data. -/
inductive Value where
  | nil
  | time (t : Time)
  | str (s : String)
  | int (n : Int)
  deriving DecidableEq, Repr

/-- Go `map[interface{}]interface{}`. -/
abbrev Values := List (Key × Value)

/-- Go `m[k]`: the value under `k`, `nil` when there is none. -/
def mapGet (m : Values) (k : Key) : Value :=
  match m.lookup k with
  | some v => v
  | none => Value.nil

/-- Go `delete(m, k)`. -/
def mapDelete (m : Values) (k : Key) : Values :=
  m.filter (fun e => e.1 != k)

/-- Go `m[k] = v`. -/
def mapPut (m : Values) (k : Key) (v : Value) : Values :=
  (k, v) :: mapDelete m k

/-- Go `type Session struct` (sessions.go).  `Options` points to an `Options`
value owned by the session: every constructor in the repository allocates
one. -/
structure Session where
  ID : String
  Values : Values
  Options : Options
  IsNew : Bool
  store : Option StoreId
  name : String
  deriving DecidableEq, Repr

/-- Go `func NewSession(store Store, name string) *Session`. -/
def NewSession (store : StoreId) (name : String) : Session :=
  { ID := "",
    Values := [],
    Options := { Path := "", Domain := "", MaxAge := 0, Secure := false, HttpOnly := false },
    IsNew := false,
    store := some store,
    name := name }

/-- Go `func newCookieFromOptions(name, value string, options *Options)`. -/
def newCookieFromOptions (name value : String) (options : Options) : Cookie :=
  { Name := name,
    Value := value,
    Path := options.Path,
    Domain := options.Domain,
    MaxAge := options.MaxAge,
    Secure := options.Secure,
    HttpOnly := options.HttpOnly,
    Expires := none }

/-- Go `func NewCookie(name, value string, options *Options) *http.Cookie`;
`time.Unix(1, 0)` is one second after the epoch. -/
def NewCookie (name value : String) (options : Options) (clock : Clock) : Cookie × Clock :=
  let cookie := newCookieFromOptions name value options
  if options.MaxAge > 0 then
    let d := wrap64 (options.MaxAge * 1000000000)
    let (t, clock1) := clock.now
    ({ cookie with Expires := some (timeAdd t d) }, clock1)
  else if options.MaxAge < 0 then
    ({ cookie with Expires := some 1000000000 }, clock)
  else
    (cookie, clock)

/-- Go `func SetCookieToContext(c *gin.Context, cookie *http.Cookie)`. -/
def SetCookieToContext (c : Context) (cookie : Cookie) : Context :=
  c.SetCookie cookie.Name cookie.Value cookie.MaxAge cookie.Path cookie.Domain
    cookie.Secure cookie.HttpOnly

end Sessions

namespace Mysqlstore

open Sessions

/-! ## The MySQL store (stores/mysqlstore/mysql.go) -/

/-- Go `type sessionRow struct`. -/
structure sessionRow where
  id : String
  data : String
  createdOn : Time
  modifiedOn : Time
  expiresOn : Time
  deriving DecidableEq, Repr

/-- A prepared statement executed with its arguments, in the argument order
of the `Exec` and `QueryRow` calls. -/
inductive Stmt where
  | insert (data : String) (createdOn modifiedOn expiresOn : Time)
  | delete (id : String)
  | update (data : String) (createdOn expiresOn : Time) (id : String)
  | select (id : String)
  deriving DecidableEq, Repr

/-- Go `type MySQLStore struct`.  The prepared statements are given by their
effect on a database of type `DB`: `stmtInsert` returns the error of `Exec`
and, inside, the outcome of `LastInsertId()`; `stmtSelect` is `QueryRow`
followed by `Scan`.  The codecs are given by what `securecookie.EncodeMulti`
and `securecookie.DecodeMulti` compute with them, for a session identifier and
for a `Values` map, as functions of their arguments (the codec's own clock
and randomness are left out); a failed decode leaves its destination as it
was, and `decodeValues` receives the map it decodes into.  `self` is the
identity of the store as a `Store` value. -/
structure MySQLStore (DB : Type) where
  self : StoreId
  stmtInsert : DB → String → Time → Time → Time → DB × Except String (Except String Int)
  stmtDelete : DB → String → DB × Option String
  stmtUpdate : DB → String → Time → Time → String → DB × Option String
  stmtSelect : DB → String → Except String sessionRow
  encodeID : String → String → Except String String
  decodeID : String → String → Except String String
  encodeValues : String → Values → Except String String
  decodeValues : String → String → Values → Except String Values
  Options : Options

/-- What the store works in: the database, the wall clock, the `gin.Context`
of the request being served, and the statements executed so far. -/
structure World (DB : Type) where
  db : DB
  clock : Clock
  ctx : Context
  trace : List Stmt

/-- The reserved key `"created_on"`. -/
def createdOnKey : Key := Key.str "created_on"

/-- The reserved key `"expires_on"`. -/
def expiresOnKey : Key := Key.str "expires_on"

/-- The reserved key `"modified_on"`. -/
def modifiedOnKey : Key := Key.str "modified_on"

/-- The block `if crOn == nil { createdOn = time.Now() } else
{ createdOn = crOn.(time.Time) }` of `insert` and `save`. -/
def createdOnOf (crOn : Value) (clock : Clock) : Except Panic (Time × Clock) :=
  match crOn with
  | Value.nil => .ok clock.now
  | Value.time t => .ok (t, clock)
  | _ => .error Panic.typeAssertion

/-- The block of `insert` that sets `expiresOn` from `exOn`. -/
def insertExpiresOn (exOn : Value) (maxAge : Int) (clock : Clock) :
    Except Panic (Time × Clock) :=
  match exOn with
  | Value.nil =>
    match clock.now with
    | (t, clock1) => .ok (timeAdd t (secondsDuration maxAge), clock1)
  | Value.time t => .ok (t, clock)
  | _ => .error Panic.typeAssertion

/-- The block of `save` that sets `expiresOn` from `exOn`. -/
def saveExpiresOn (exOn : Value) (maxAge : Int) (clock : Clock) :
    Except Panic (Time × Clock) :=
  match exOn with
  | Value.nil =>
    match clock.now with
    | (t, clock1) => .ok (timeAdd t (secondsDuration maxAge), clock1)
  | Value.time expiresOn =>
    match clock.now with
    | (t, clock1) =>
      if timeSub expiresOn (timeAdd t (secondsDuration maxAge)) < 0 then
        match clock1.now with
        | (t1, clock2) => .ok (timeAdd t1 (secondsDuration maxAge), clock2)
      else
        .ok (expiresOn, clock1)
  | _ => .error Panic.typeAssertion

/-- The three `delete(session.Values, ...)` statements of `insert` and `save`. -/
def stripReserved (values : Values) : Values :=
  mapDelete (mapDelete (mapDelete values createdOnKey) expiresOnKey) modifiedOnKey

/-- Go `func (m *MySQLStore) insert(session *sessions.Session) error`. -/
def insert {DB : Type} (m : MySQLStore DB) (session : Session) (w : World DB) :
    Except Panic (Option String × Session × World DB) :=
  match createdOnOf (mapGet session.Values createdOnKey) w.clock with
  | .error p => .error p
  | .ok (createdOn, clock1) =>
    let modifiedOn := createdOn
    match insertExpiresOn (mapGet session.Values expiresOnKey) session.Options.MaxAge clock1 with
    | .error p => .error p
    | .ok (expiresOn, clock2) =>
      let session1 : Session := { session with Values := stripReserved session.Values }
      match m.encodeValues session1.name session1.Values with
      | .error encErr =>
        .ok (some encErr, session1, { db := w.db, clock := clock2, ctx := w.ctx, trace := w.trace })
      | .ok encoded =>
        match m.stmtInsert w.db encoded createdOn modifiedOn expiresOn with
        | (db1, res) =>
          let w1 : World DB :=
            { db := db1, clock := clock2, ctx := w.ctx,
              trace := w.trace ++ [Stmt.insert encoded createdOn modifiedOn expiresOn] }
          match res with
          | .error insErr => .ok (some insErr, session1, w1)
          | .ok (.error lInsErr) => .ok (some lInsErr, session1, w1)
          | .ok (.ok lastInserted) =>
            .ok (none, { session1 with ID := toString lastInserted }, w1)

/-- The part of `save` after the `IsNew` test: the update of the row. -/
def update {DB : Type} (m : MySQLStore DB) (session : Session) (w : World DB) :
    Except Panic (Option String × Session × World DB) :=
  match createdOnOf (mapGet session.Values createdOnKey) w.clock with
  | .error p => .error p
  | .ok (createdOn, clock1) =>
    match saveExpiresOn (mapGet session.Values expiresOnKey) session.Options.MaxAge clock1 with
    | .error p => .error p
    | .ok (expiresOn, clock2) =>
      let session1 : Session := { session with Values := stripReserved session.Values }
      match m.encodeValues session1.name session1.Values with
      | .error encErr =>
        .ok (some encErr, session1, { db := w.db, clock := clock2, ctx := w.ctx, trace := w.trace })
      | .ok encoded =>
        match m.stmtUpdate w.db encoded createdOn expiresOn session1.ID with
        | (db1, updErr) =>
          .ok (updErr, session1,
            { db := db1, clock := clock2, ctx := w.ctx,
              trace := w.trace ++ [Stmt.update encoded createdOn expiresOn session1.ID] })

/-- Go `func (m *MySQLStore) save(session *sessions.Session) error`. -/
def save {DB : Type} (m : MySQLStore DB) (session : Session) (w : World DB) :
    Except Panic (Option String × Session × World DB) :=
  if session.IsNew = true then insert m session w else update m session w

/-- Go `func (m *MySQLStore) load(session *sessions.Session) error`.  The
expiry test reads the clock once, the log line of an expired session once
more. -/
def load {DB : Type} (m : MySQLStore DB) (session : Session) (w : World DB) :
    Option String × Session × World DB :=
  let trace1 := w.trace ++ [Stmt.select session.ID]
  match m.stmtSelect w.db session.ID with
  | .error scanErr =>
    (some scanErr, session, { db := w.db, clock := w.clock, ctx := w.ctx, trace := trace1 })
  | .ok sess =>
    match w.clock.now with
    | (t, clock1) =>
      if timeSub sess.expiresOn t < 0 then
        (some "Session expired", session,
          { db := w.db, clock := clock1.now.2, ctx := w.ctx, trace := trace1 })
      else
        match m.decodeValues session.name sess.data session.Values with
        | .error err =>
          (some err, session, { db := w.db, clock := clock1, ctx := w.ctx, trace := trace1 })
        | .ok values =>
          (none,
            { session with
              Values := mapPut (mapPut (mapPut values createdOnKey (Value.time sess.createdOn))
                modifiedOnKey (Value.time sess.modifiedOn))
                expiresOnKey (Value.time sess.expiresOn) },
            { db := w.db, clock := clock1, ctx := w.ctx, trace := trace1 })

/-- The session `New` builds before it looks at the request: `NewSession`,
a copy of the store's options, and `IsNew = true`. -/
def freshSession {DB : Type} (m : MySQLStore DB) (name : String) : Session :=
  { NewSession m.self name with
    Options :=
      { Path := m.Options.Path, Domain := m.Options.Domain, MaxAge := m.Options.MaxAge,
        Secure := m.Options.Secure, HttpOnly := m.Options.HttpOnly },
    IsNew := true }

/-- Go `func (m *MySQLStore) New(c *gin.Context, name string)
(*sessions.Session, error)`. -/
def New {DB : Type} (m : MySQLStore DB) (w : World DB) (name : String) :
    Session × Option String × World DB :=
  let session := freshSession m name
  match w.ctx.Cookie name with
  | none => (session, none, w)
  | some cook =>
    match m.decodeID name cook with
    | .error err => (session, some err, w)
    | .ok id =>
      match load m { session with ID := id } w with
      | (none, session1, w1) => ({ session1 with IsNew := false }, none, w1)
      | (some _, session1, w1) => (session1, none, w1)

/-- Go `func (m *MySQLStore) Save(c *gin.Context, session *sessions.Session)
error`. -/
def Save {DB : Type} (m : MySQLStore DB) (session : Session) (w : World DB) :
    Except Panic (Option String × Session × World DB) :=
  match (if session.ID = "" then insert m session w else save m session w) with
  | .error p => .error p
  | .ok (some err, session1, w1) => .ok (some err, session1, w1)
  | .ok (none, session1, w1) =>
    match m.encodeID session1.name session1.ID with
    | .error err => .ok (some err, session1, w1)
    | .ok encoded =>
      match NewCookie session1.name encoded session1.Options w1.clock with
      | (cookie, clock2) =>
        .ok (none, session1,
          { db := w1.db, clock := clock2, ctx := SetCookieToContext w1.ctx cookie,
            trace := w1.trace })

/-- The loop `for k := range session.Values { delete(session.Values, k) }`. -/
def clearValues (values : Values) : Values :=
  (values.map (fun e => e.1)).foldl mapDelete values

/-- Go `func (m *MySQLStore) Delete(c *gin.Context, session *sessions.Session)
error`. -/
def Delete {DB : Type} (m : MySQLStore DB) (session : Session) (w : World DB) :
    Option String × Session × World DB :=
  let options : Options := { session.Options with MaxAge := -1 }
  match NewCookie session.name "" options w.clock with
  | (cookie, clock1) =>
    let ctx1 := SetCookieToContext w.ctx cookie
    let session1 : Session := { session with Values := clearValues session.Values }
    match m.stmtDelete w.db session1.ID with
    | (db1, delErr) =>
      (delErr, session1,
        { db := db1, clock := clock1, ctx := ctx1,
          trace := w.trace ++ [Stmt.delete session1.ID] })

/-- Whether a value read from the map is nil (also: no entry) or a
`time.Time`; on any other value the type assertions of `insert` and `save`
panic. -/
def isTimeOrNil : Value → Bool
  | Value.nil => true
  | Value.time _ => true
  | _ => false

/-- The time held by a value read from the map, and `dflt` when the value is
nil (also: no entry). -/
def explicitTime (v : Value) (dflt : Time) : Time :=
  match v with
  | Value.time t => t
  | _ => dflt

/-- The later of the time held by a value read from the map and `floor`, and
`floor` itself when the value is nil (also: no entry). -/
def extendedTime (v : Value) (floor : Time) : Time :=
  match v with
  | Value.time t => max t floor
  | _ => floor

/-! ### Persistence history of a session -/

/-- Insert into a table kept as a list of rows, newest first; the new row gets
the next number as its id. -/
def demoInsert (db : List sessionRow) (data : String) (createdOn modifiedOn expiresOn : Time) :
    List sessionRow × Except String (Except String Int) :=
  ({ id := toString (Int.ofNat (db.length + 1)), data := data, createdOn := createdOn,
     modifiedOn := modifiedOn, expiresOn := expiresOn } :: db,
   .ok (.ok (Int.ofNat (db.length + 1))))

/-- Select the newest row with the given id; the empty id matches no row. -/
def demoSelect (db : List sessionRow) (id : String) : Except String sessionRow :=
  if id = "" then .error "sql: no rows in result set"
  else
    match db.find? (fun row => row.id == id) with
    | some row => .ok row
    | none => .error "sql: no rows in result set"

/-- Update the rows with the given id. -/
def demoUpdate (db : List sessionRow) (data : String) (createdOn expiresOn : Time)
    (id : String) : List sessionRow × Option String :=
  (db.map (fun row =>
      if row.id = id then
        { id := row.id, data := data, createdOn := createdOn, modifiedOn := row.modifiedOn,
          expiresOn := expiresOn }
      else row),
   none)

/-- Delete the rows with the given id. -/
def demoDelete (db : List sessionRow) (id : String) : List sessionRow × Option String :=
  (db.filter (fun row => row.id != id), none)

/-- The payload used in the examples: `uid` is 42. -/
def demoValues : Values := [(Key.str "uid", Value.int 42)]

/-- A store over the list table.  Its codec leaves identifiers as they are and
refuses the text `garbage`; it encodes the payload `demoValues` and the empty
payload and refuses every other one. -/
def demoStore : MySQLStore (List sessionRow) where
  self := 1
  stmtInsert := demoInsert
  stmtDelete := demoDelete
  stmtUpdate := demoUpdate
  stmtSelect := demoSelect
  encodeID := fun _ id =>
    if id = "garbage" then .error "securecookie: the value is not valid" else .ok id
  decodeID := fun _ cook =>
    if cook = "garbage" then .error "securecookie: the value is not valid" else .ok cook
  encodeValues := fun _ values =>
    if values = demoValues then .ok "uid=42"
    else if values = [] then .ok ""
    else .error "securecookie: error - failed to encode value"
  decodeValues := fun _ data dst =>
    if data = "uid=42" then .ok demoValues
    else if data = "" then .ok dst
    else .error "securecookie: the value is not valid"
  Options := { Path := "/", Domain := "", MaxAge := 3600, Secure := false, HttpOnly := false }

/-- The context of a request with the given cookies and nothing set on the
response yet.  Escaping and unescaping are the identity, as they are on the
letters and digits the examples use; the name check accepts every non-empty
name, as it does the names the examples use. -/
def demoContext (request : String → Option String) : Context where
  request := request
  response := []
  queryEscape := fun value => value
  queryUnescape := fun value => value
  validCookieName := fun name => name != ""

/-- A world with an empty table, a clock that always reads `now`, and the
given request cookies. -/
def demoWorld (now : Time) (request : String → Option String) : World (List sessionRow) where
  db := []
  clock := { reading := fun _ => now, tick := 0 }
  ctx := demoContext request
  trace := []

/-- A session never saved, with an explicit `created_on` at the epoch and a
lifetime of ten seconds. -/
def backdatedSession : Session where
  ID := ""
  Values := [(createdOnKey, Value.time 0)]
  Options := { Path := "/", Domain := "", MaxAge := 10, Secure := false, HttpOnly := false }
  IsNew := true
  store := some 1
  name := "auth"

/-- A session loaded earlier from row 7 whose lifetime in seconds does not fit
a `time.Duration`. -/
def longLivedSession : Session where
  ID := "7"
  Values := []
  Options :=
    { Path := "/", Domain := "", MaxAge := 9223372037, Secure := false, HttpOnly := false }
  IsNew := false
  store := some 1
  name := "auth"

/-- A session loaded earlier from row 7, with a lifetime of one hour and the
payload `demoValues`. -/
def loadedSession : Session where
  ID := "7"
  Values := demoValues
  Options := { Path := "/", Domain := "", MaxAge := 3600, Secure := false, HttpOnly := false }
  IsNew := false
  store := some 1
  name := "auth"

/-- A session never saved, as `New` returns it without a cookie, carrying the
payload `demoValues`. -/
def unsavedSession : Session where
  ID := ""
  Values := demoValues
  Options := { Path := "/", Domain := "", MaxAge := 3600, Secure := false, HttpOnly := false }
  IsNew := true
  store := some 1
  name := "auth"

/-- What `Save` of `unsavedSession` on an empty table leaves behind: its
result, the session and the world. -/
def demoSaved : Option String × Session × World (List sessionRow) :=
  match Save demoStore unsavedSession (demoWorld 0 (fun _ => none)) with
  | .ok res => res
  | .error _ => (none, unsavedSession, demoWorld 0 (fun _ => none))

/-- The next request, one minute later: the table as `demoSaved` left it, and
a request cookie `auth` carrying the value of the cookie that `Save` set (the
identifier `1`, which the codec of `demoStore` leaves as it is). -/
def nextRequest : World (List sessionRow) where
  db := demoSaved.2.2.db
  clock := { reading := fun _ => 60000000000, tick := 0 }
  ctx := demoContext (fun name => if name = "auth" then some "1" else none)
  trace := []

/-- The world of a registry whose stores are MySQL stores: the exported fields
of every session object by address (the unexported ones are kept by the
registry), the next free address, and the world of the stores. -/
structure Heap (DB : Type) where
  sessions : Ptr → Session
  next : Ptr
  world : World DB

/-- A `MySQLStore` as a `Store` of the registry: `New` allocates the session
`MySQLStore.New` returns, `Save` runs `MySQLStore.Save` on the session at the
given address, read with the store and name the registry holds for it, and
panics when that panics. -/
def asStore {DB : Type} (m : MySQLStore DB) : Store (Heap DB) where
  New := fun _ h name =>
    match New m h.world name with
    | (session, err, w1) =>
      .ok ({ sessions := Function.update h.sessions h.next session, next := h.next + 1,
             world := w1 }, some h.next, err)
  Save := fun priv h p =>
    match Save m { h.sessions p with store := (priv p).store, name := (priv p).name }
        h.world with
    | .error e => .error e
    | .ok (err, session1, w1) =>
      .ok ({ sessions := Function.update h.sessions p session1, next := h.next, world := w1 },
        err)

/-- A payload the codec of `demoStore` refuses to encode. -/
def cartValues : Values := [(Key.str "cart", Value.int 3)]

/-- A registry over `demoStore` with two cached sessions never saved: `cart`
at address 0, whose payload the codec refuses, and `auth` at address 1 with
the payload `demoValues`. -/
def twoSessions : State (Heap (List sessionRow)) where
  sessions := [("cart", { s := some 0, err := none }), ("auth", { s := some 1, err := none })]
  priv := fun p => { store := some 1, name := if p = 0 then "cart" else "auth" }
  world :=
    { sessions := fun p =>
        if p = 0 then { unsavedSession with Values := cartValues, name := "cart" }
        else unsavedSession,
      next := 2,
      world := demoWorld 0 (fun _ => none) }
  calls := []

/-- The same registry with a text under `created_on` in the session at
address 0. -/
def textCreatedOn : State (Heap (List sessionRow)) where
  sessions := twoSessions.sessions
  priv := twoSessions.priv
  world :=
    { sessions := fun p =>
        if p = 0 then
          { unsavedSession with Values := [(createdOnKey, Value.str "yesterday")],
                                name := "cart" }
        else unsavedSession,
      next := 2,
      world := demoWorld 0 (fun _ => none) }
  calls := []

/-- What the two `Save` calls on `twoSessions` leave and return. -/
def twoSessionsSaved : Heap (List sessionRow) × List (Option String) :=
  match runSaves (fun _ => asStore demoStore) twoSessions.priv
      (pending twoSessions.priv twoSessions.sessions) twoSessions.world with
  | .ok res => res
  | .error _ => (twoSessions.world, [])

end Mysqlstore

/-! # Theorems -/

namespace Sessions

/-! ## MultiError -/

theorem MultiError.scan_eq (m : MultiError) (s : String) (n : Nat) :
    MultiError.scan m s n =
      (if n = 0 then (m.filterMap id).head?.getD s else s, n + (m.filterMap id).length) := by
  induction m generalizing s n with
  | nil => simp [MultiError.scan]
  | cons e rest ih =>
    cases e with
    | none => simpa [MultiError.scan] using ih s n
    | some msg =>
      rw [MultiError.scan, ih]
      by_cases hn : n = 0
      · subst hn; simp; omega
      · simp [hn]; omega

/-- C5: for a `MultiError` holding `N ≥ 1` non-nil errors, the first of which
has message `s`, `Error()` is `s` when `N = 1`, `s` followed by
`" (and 1 other error)"` when `N = 2`, and `s` followed by
`" (and N-1 other errors)"` with `N-1` in decimal when `N > 2`. -/
theorem MultiError.Error_format (m : MultiError) (s : String) (N : Nat)
    (hN : (m.filterMap id).length = N) (hs : (m.filterMap id).head? = some s) :
    (N = 1 → MultiError.Error m = s) ∧
    (N = 2 → MultiError.Error m = s ++ " (and 1 other error)") ∧
    (2 < N → MultiError.Error m = s ++ " (and " ++ toString (N - 1) ++ " other errors)") := by
  have hscan : MultiError.scan m "" 0 = (s, N) := by
    rw [MultiError.scan_eq]; simp [hN, hs]
  refine ⟨?_, ?_, ?_⟩
  · intro h; subst h; simp [MultiError.Error, hscan]
  · intro h; subst h; simp [MultiError.Error, hscan]
  · intro h
    obtain ⟨k, rfl⟩ : ∃ k, N = k + 3 := ⟨N - 3, by omega⟩
    simp [MultiError.Error, hscan]

/-- Instance of `MultiError.Error_format`: three errors around a nil entry. -/
theorem MultiError.Error_format_witness :
    ([none, some "x", some "y", some "z"].filterMap id).length = 3 ∧
    ([none, some "x", some "y", some "z"].filterMap id).head? = some "x" ∧
    MultiError.Error [none, some "x", some "y", some "z"] = "x (and 2 other errors)" :=
  ⟨by decide, by decide,
   (MultiError.Error_format [none, some "x", some "y", some "z"] "x" 3
      (by decide) (by decide)).2.2 (by decide)⟩

/-! ## Registry.Save -/

theorem Registry.saveLoop_spec {W : Type} (quote : String → String)
    (impl : StoreId → Store W) (priv : Ptr → Priv) (entries : List (String × sessionInfo))
    (h : ∀ e ∈ entries, e.2.s ≠ none) (world : W) (calls : List Call) (errMulti : MultiError)
    (world1 : W) (results : List (Option String))
    (hrun : runSaves impl priv (pending priv entries) world = .ok (world1, results)) :
    ∃ errs : MultiError,
      Registry.saveLoop quote impl priv entries world calls errMulti =
        .ok (world1,
          calls ++ List.zipWith (fun t r => Call.Save t.1 t.2 (.ok r))
            (pending priv entries) results,
          errMulti ++ errs) ∧
      results.length = (pending priv entries).length ∧
      (errs = [] ↔
        (∀ e ∈ entries, ∀ p, e.2.s = some p → (priv p).store ≠ none) ∧
        ∀ r ∈ results, r = none) := by
  induction entries generalizing world calls errMulti results with
  | nil =>
    simp only [pending, List.filterMap_nil, runSaves, Except.ok.injEq, Prod.mk.injEq] at hrun
    obtain ⟨rfl, rfl⟩ := hrun
    exact ⟨[], by simp [Registry.saveLoop, pending]⟩
  | cons e rest ih =>
    obtain ⟨name, s, err⟩ := e
    have hrest : ∀ e ∈ rest, e.2.s ≠ none := fun e he => h e (List.mem_cons_of_mem _ he)
    cases s with
    | none => exact absurd rfl (h _ (List.mem_cons_self _ _))
    | some session =>
      cases hstore : (priv session).store with
      | none =>
        have hpend : pending priv ((name, { s := some session, err := err }) :: rest) =
            pending priv rest := by simp [pending, hstore]
        rw [hpend] at hrun ⊢
        obtain ⟨errs, hloop, hlen, -⟩ := ih hrest world calls
          (errMulti ++ [some ("gin-sessions: missing store for session " ++ quote name)])
          results hrun
        refine ⟨some ("gin-sessions: missing store for session " ++ quote name) :: errs,
          ?_, hlen, ?_⟩
        · simp only [Registry.saveLoop, hstore]
          rw [hloop]; simp
        · constructor
          · intro hnil; exact absurd hnil (by simp)
          · rintro ⟨hall, -⟩
            exact absurd hstore (hall _ (List.mem_cons_self _ _) session rfl)
      | some store =>
        have hpend : pending priv ((name, { s := some session, err := err }) :: rest) =
            (store, session) :: pending priv rest := by simp [pending, hstore]
        rw [hpend] at hrun ⊢
        simp only [runSaves] at hrun
        cases hsave : (impl store).Save priv world session with
        | error p => simp [hsave] at hrun
        | ok res =>
          obtain ⟨world0, r⟩ := res
          simp only [hsave] at hrun
          cases htail : runSaves impl priv (pending priv rest) world0 with
          | error p => simp [htail] at hrun
          | ok res1 =>
            obtain ⟨world2, rs⟩ := res1
            simp only [htail, Except.ok.injEq, Prod.mk.injEq] at hrun
            obtain ⟨rfl, rfl⟩ := hrun
            cases r with
            | some msg =>
              obtain ⟨errs, hloop, hlen, -⟩ := ih hrest world0
                (calls ++ [Call.Save store session (.ok (some msg))])
                (errMulti ++ [some ("gin-sessions: error saving session " ++ quote name
                  ++ " -- " ++ msg)]) rs htail
              refine ⟨some ("gin-sessions: error saving session " ++ quote name ++ " -- "
                ++ msg) :: errs, ?_, by simp [hlen], ?_⟩
              · simp only [Registry.saveLoop, hstore, hsave]
                rw [hloop]; simp
              · constructor
                · intro hnil; exact absurd hnil (by simp)
                · rintro ⟨-, hall⟩
                  exact absurd (hall _ (List.mem_cons_self _ _)) (by simp)
            | none =>
              obtain ⟨errs, hloop, hlen, hiff⟩ := ih hrest world0
                (calls ++ [Call.Save store session (.ok none)]) errMulti rs htail
              refine ⟨errs, ?_, by simp [hlen], ?_⟩
              · simp only [Registry.saveLoop, hstore, hsave]
                rw [hloop]; simp
              · rw [hiff]
                constructor
                · rintro ⟨h1, h2⟩
                  refine ⟨?_, ?_⟩
                  · intro e he p hp
                    rcases List.mem_cons.1 he with rfl | he
                    · cases hp; simp [hstore]
                    · exact h1 e he p hp
                  · intro r hr
                    rcases List.mem_cons.1 hr with rfl | hr
                    · rfl
                    · exact h2 r hr
                · rintro ⟨h1, h2⟩
                  exact ⟨fun e he => h1 e (List.mem_cons_of_mem _ he),
                    fun r hr => h2 r (List.mem_cons_of_mem _ hr)⟩

/-- C4, counterexample: two cached sessions of the MySQL store, both non-nil
and both with a store; the first holds a text under `created_on`, so its
`Save` panics at the type assertion.  `Registry.Save` has no `recover`: it
does not return, and the only call made is the one on the first session; the
second session is never attempted. -/
theorem Registry.Save_stops_at_panic :
    (∀ e ∈ Mysqlstore.textCreatedOn.sessions, e.2.s ≠ none) ∧
    pending Mysqlstore.textCreatedOn.priv Mysqlstore.textCreatedOn.sessions =
      [(1, 0), (1, 1)] ∧
    Registry.Save (fun name => name) (fun _ => Mysqlstore.asStore Mysqlstore.demoStore)
        Mysqlstore.textCreatedOn =
      .error (Panic.typeAssertion, [Call.Save 1 0 (.error Panic.typeAssertion)]) := by
  refine ⟨?_, rfl, rfl⟩
  intro e he
  simp only [Mysqlstore.textCreatedOn, Mysqlstore.twoSessions, List.mem_cons,
    List.mem_singleton, List.not_mem_nil, or_false] at he
  rcases he with rfl | rfl <;> simp

/-- C4, amended: on a registry whose cached sessions are all non-nil, when the
`Save` calls on the cached sessions that have a store, made one after the other
in iteration order, all return (none panics), leaving the world `world1` and
returning the errors `results`: `Registry.Save` returns, it has made exactly
these calls, one per cached session with a store, whatever the earlier ones
returned, and left the world they left; and it returns nil exactly when every
cached session has a store and every one of these calls returned nil.  The
cache and the sessions' stores and names are left as they were. -/
theorem Registry.Save_attempts_every_session {W : Type} (quote : String → String)
    (impl : StoreId → Store W) (st : State W)
    (h : ∀ e ∈ st.sessions, e.2.s ≠ none)
    (world1 : W) (results : List (Option String))
    (hrun : runSaves impl st.priv (pending st.priv st.sessions) st.world =
      .ok (world1, results)) :
    ∃ ret : Option MultiError,
      Registry.Save quote impl st =
        .ok ({ sessions := st.sessions, priv := st.priv, world := world1,
               calls := st.calls ++ List.zipWith (fun t r => Call.Save t.1 t.2 (.ok r))
                 (pending st.priv st.sessions) results }, ret) ∧
      results.length = (pending st.priv st.sessions).length ∧
      (ret = none ↔
        (∀ e ∈ st.sessions, ∀ p, e.2.s = some p → (st.priv p).store ≠ none) ∧
        ∀ r ∈ results, r = none) := by
  obtain ⟨errs, hloop, hlen, hiff⟩ :=
    Registry.saveLoop_spec quote impl st.priv st.sessions h st.world st.calls []
      world1 results hrun
  rw [List.nil_append] at hloop
  refine ⟨if errs ≠ [] then some errs else none, ?_, hlen, ?_⟩
  · simp only [Registry.Save, hloop]
  · rw [← hiff]; simp

/-- Instance of `Registry.Save_attempts_every_session`: two cached sessions of
the MySQL store; the save of the first one fails with an encoding error, the
second one is attempted all the same and saved, and the result is not nil. -/
theorem Registry.Save_attempts_every_session_witness :
    (∀ e ∈ Mysqlstore.twoSessions.sessions, e.2.s ≠ none) ∧
    runSaves (fun _ => Mysqlstore.asStore Mysqlstore.demoStore) Mysqlstore.twoSessions.priv
        (pending Mysqlstore.twoSessions.priv Mysqlstore.twoSessions.sessions)
        Mysqlstore.twoSessions.world =
      .ok (Mysqlstore.twoSessionsSaved.1,
        [some "securecookie: error - failed to encode value", none]) ∧
    ∃ ret : Option MultiError,
      Registry.Save (fun name => name) (fun _ => Mysqlstore.asStore Mysqlstore.demoStore)
          Mysqlstore.twoSessions =
        .ok ({ sessions := Mysqlstore.twoSessions.sessions,
               priv := Mysqlstore.twoSessions.priv,
               world := Mysqlstore.twoSessionsSaved.1,
               calls := Mysqlstore.twoSessions.calls ++
                 List.zipWith (fun t r => Call.Save t.1 t.2 (.ok r))
                   (pending Mysqlstore.twoSessions.priv Mysqlstore.twoSessions.sessions)
                   [some "securecookie: error - failed to encode value", none] }, ret) ∧
      [some "securecookie: error - failed to encode value", (none : Option String)].length =
        (pending Mysqlstore.twoSessions.priv Mysqlstore.twoSessions.sessions).length ∧
      (ret = none ↔
        (∀ e ∈ Mysqlstore.twoSessions.sessions, ∀ p, e.2.s = some p →
          (Mysqlstore.twoSessions.priv p).store ≠ none) ∧
        ∀ r ∈ [some "securecookie: error - failed to encode value", (none : Option String)],
          r = none) :=
  have hnil : ∀ e ∈ Mysqlstore.twoSessions.sessions, e.2.s ≠ none := by
    intro e he
    simp only [Mysqlstore.twoSessions, List.mem_cons, List.mem_singleton, List.not_mem_nil,
      or_false] at he
    rcases he with rfl | rfl <;> simp
  ⟨hnil, rfl,
   Registry.Save_attempts_every_session (fun name => name)
     (fun _ => Mysqlstore.asStore Mysqlstore.demoStore) Mysqlstore.twoSessions hnil
     Mysqlstore.twoSessionsSaved.1 [some "securecookie: error - failed to encode value", none]
     rfl⟩

/-! ## Registry.Get -/

/-- C1, counterexample: on a fresh registry and a valid name, a store whose
`New` returns a nil session makes `Registry.Get` panic at
`session.name = name`; no session is returned. -/
theorem Registry.Get_panics_on_nil_session :
    (fun _ : String => true) "auth" = true ∧
    Registry.Get (fun _ => true) demoImpl emptyState 0 "auth" =
      .error Panic.nilDereference ∧
    ¬ ∃ r, Registry.Get (fun _ => true) demoImpl emptyState 0 "auth" = .ok r := by
  refine ⟨rfl, rfl, ?_⟩
  rintro ⟨r, hr⟩
  have h : Registry.Get (fun _ => true) demoImpl emptyState 0 "auth" =
      .error Panic.nilDereference := rfl
  rw [h] at hr
  cases hr

/-- C1, amended: for a valid name, when the entry cached under the name (if
any) holds a non-nil session and otherwise `A.New` returns a non-nil session,
`Get(A, name)` followed by `Get(B, name)` returns the same session pointer and
the same error both times; the first call invokes `A.New` exactly when the name
was not cached, the second call invokes no store at all; the session's store
is `A` after the first call and `B` after the second. -/
theorem Registry.Get_twice_same_session {W : Type} (isCookieNameValid : String → Bool)
    (impl : StoreId → Store W) (st : State W) (A B : StoreId) (name : String)
    (hvalid : isCookieNameValid name = true)
    (hcached : ∀ info, st.sessions.lookup name = some info → info.s ≠ none)
    (hnew : st.sessions.lookup name = none →
      ∃ world p err, (impl A).New st.priv st.world name = .ok (world, some p, err)) :
    ∃ (st1 st2 : State W) (p : Ptr) (err : Option String),
      Registry.Get isCookieNameValid impl st A name = .ok (st1, some p, err) ∧
      Registry.Get isCookieNameValid impl st1 B name = .ok (st2, some p, err) ∧
      st1.sessions.lookup name = some { s := some p, err := err } ∧
      st1.calls =
        (if (st.sessions.lookup name).isSome then st.calls
         else st.calls ++ [Call.New A name]) ∧
      st2.calls = st1.calls ∧
      (st1.priv p).store = some A ∧
      (st2.priv p).store = some B ∧
      st2.sessions = st1.sessions ∧ st2.world = st1.world := by
  cases hlook : st.sessions.lookup name with
  | some info =>
    obtain ⟨s, err⟩ := info
    cases s with
    | none => exact absurd rfl (hcached _ hlook)
    | some p =>
      refine ⟨⟨st.sessions, Function.update st.priv p ⟨some A, (st.priv p).name⟩,
          st.world, st.calls⟩,
        ⟨st.sessions, Function.update (Function.update st.priv p ⟨some A, (st.priv p).name⟩) p
          ⟨some B, (st.priv p).name⟩, st.world, st.calls⟩,
        p, err, ?_, ?_, hlook, ?_, rfl, ?_, ?_, rfl, rfl⟩
      · simp [Registry.Get, hvalid, hlook, setStore]
      · simp [Registry.Get, hvalid, hlook, setStore]
      · simp
      · simp
      · simp
  | none =>
    obtain ⟨world, p, err, hrun⟩ := hnew hlook
    have hl : (mapSet st.sessions name { s := some p, err := err }).lookup name =
        some { s := some p, err := err } := by
      simp [mapSet, List.lookup]
    refine ⟨⟨mapSet st.sessions name ⟨some p, err⟩,
        Function.update (Function.update st.priv p ⟨(st.priv p).store, name⟩) p
          ⟨some A, name⟩,
        world, st.calls ++ [Call.New A name]⟩,
      ⟨mapSet st.sessions name ⟨some p, err⟩,
        Function.update (Function.update
          (Function.update st.priv p ⟨(st.priv p).store, name⟩) p ⟨some A, name⟩) p
          ⟨some B, name⟩,
        world, st.calls ++ [Call.New A name]⟩,
      p, err, ?_, ?_, hl, ?_, rfl, ?_, ?_, rfl, rfl⟩
    · simp [Registry.Get, hvalid, hlook, hrun, setStore, setName]
    · simp [Registry.Get, hvalid, hl, setStore]
    · simp
    · simp
    · simp

/-- Instance of `Registry.Get_twice_same_session`: a fresh registry, first
asked through store 1 and then through store 2 (both `counterStore`). -/
theorem Registry.Get_twice_same_session_witness :
    (fun _ : String => true) "auth" = true ∧
    ∃ (st1 st2 : State Nat) (p : Ptr) (err : Option String),
      Registry.Get (fun _ => true) demoImpl emptyState 1 "auth" = .ok (st1, some p, err) ∧
      Registry.Get (fun _ => true) demoImpl st1 2 "auth" = .ok (st2, some p, err) ∧
      st1.sessions.lookup "auth" = some { s := some p, err := err } ∧
      st1.calls =
        (if (emptyState.sessions.lookup "auth").isSome then emptyState.calls
         else emptyState.calls ++ [Call.New 1 "auth"]) ∧
      st2.calls = st1.calls ∧
      (st1.priv p).store = some 1 ∧
      (st2.priv p).store = some 2 ∧
      st2.sessions = st1.sessions ∧ st2.world = st1.world :=
  ⟨rfl, Registry.Get_twice_same_session (fun _ => true) demoImpl emptyState 1 2 "auth" rfl
    (by intro info h; simp [emptyState] at h)
    (by intro _; exact ⟨_, _, _, rfl⟩)⟩

end Sessions

namespace Mysqlstore

open Sessions

/-! ## The `Values` map -/

theorem lookup_mapDelete (m : Values) (k k1 : Key) :
    (mapDelete m k).lookup k1 = if k1 = k then none else m.lookup k1 := by
  induction m with
  | nil => simp [mapDelete]
  | cons e rest ih =>
    obtain ⟨a, v⟩ := e
    simp only [mapDelete] at ih
    by_cases ha : a = k
    · subst ha
      by_cases hk : k1 = a
      · subst hk; simpa [mapDelete, List.filter] using ih
      · have hne : (k1 == a) = false := by simpa using hk
        simpa [mapDelete, List.filter, List.lookup, hne, hk] using ih
    · have hak : (a != k) = true := by simpa using ha
      by_cases hk : k1 = k
      · subst hk
        have hne : (k1 == a) = false := by simpa using fun h => ha h.symm
        simpa [mapDelete, List.filter, hak, List.lookup, hne] using ih
      · by_cases h1 : k1 = a
        · subst h1; simp [mapDelete, List.filter, hak, List.lookup, hk]
        · have hne : (k1 == a) = false := by simpa using h1
          simpa [mapDelete, List.filter, hak, List.lookup, hne, hk] using ih

theorem mem_mapDelete (m : Values) (k : Key) (e : Key × Value) :
    e ∈ mapDelete m k ↔ e ∈ m ∧ e.1 ≠ k := by
  simp [mapDelete]

theorem foldl_mapDelete_eq_nil (keys : List Key) (m : Values)
    (h : ∀ e ∈ m, e.1 ∈ keys) : keys.foldl mapDelete m = [] := by
  induction keys generalizing m with
  | nil =>
    cases m with
    | nil => rfl
    | cons e rest => exact absurd (h e (List.mem_cons_self _ _)) (by simp)
  | cons k ks ih =>
    rw [List.foldl_cons]
    apply ih
    intro e he
    obtain ⟨hm, hne⟩ := (mem_mapDelete m k e).1 he
    rcases List.mem_cons.1 (h e hm) with hk | hk
    · exact absurd hk hne
    · exact hk

theorem clearValues_eq_nil (m : Values) : clearValues m = [] :=
  foldl_mapDelete_eq_nil _ m fun e he => List.mem_map.2 ⟨e, he, rfl⟩

theorem lookup_stripReserved (m : Values) (k : Key) :
    (stripReserved m).lookup k =
      if k = createdOnKey ∨ k = expiresOnKey ∨ k = modifiedOnKey then none else m.lookup k := by
  simp only [stripReserved, lookup_mapDelete]
  by_cases h1 : k = createdOnKey <;> by_cases h2 : k = expiresOnKey <;>
    by_cases h3 : k = modifiedOnKey <;> simp [h1, h2, h3]

/-! ## Delete -/

/-- C6: for every session, `Delete` hands gin one cookie named after the
session with `MaxAge = -1`, which reaches the response when the name is a valid
cookie name, and this cookie has no `Expires`: the time `time.Unix(1, 0)` that
`NewCookie` puts into the cookie is not among the arguments
`SetCookieToContext` passes on.  The `Values` map is empty afterwards; both
effects happen whatever the delete statement returns, and the error `Delete`
returns is the error of the delete statement on the session's ID, unchanged. -/
theorem Delete_effects {DB : Type} (m : MySQLStore DB) (s : Session) (w : World DB) :
    (NewCookie s.name "" { s.Options with MaxAge := -1 } w.clock).1.Expires =
      some 1000000000 ∧
    (Delete m s w).2.2.ctx.response =
      (if w.ctx.validCookieName s.name = true then
        w.ctx.response ++
          [{ Name := s.name, Value := w.ctx.queryEscape "",
             Path := if s.Options.Path = "" then "/" else s.Options.Path,
             Domain := s.Options.Domain, MaxAge := -1, Secure := s.Options.Secure,
             HttpOnly := s.Options.HttpOnly, Expires := none }]
       else w.ctx.response) ∧
    (∀ c ∈ (Delete m s w).2.2.ctx.response, c ∈ w.ctx.response ∨ c.Expires = none) ∧
    (Delete m s w).2.1.Values = [] ∧
    (Delete m s w).1 = (m.stmtDelete w.db s.ID).2 ∧
    (Delete m s w).2.2.trace = w.trace ++ [Stmt.delete s.ID] ∧
    (Delete m s w).2.2.db = (m.stmtDelete w.db s.ID).1 := by
  have hresp : (Delete m s w).2.2.ctx.response =
      (if w.ctx.validCookieName s.name = true then
        w.ctx.response ++
          [{ Name := s.name, Value := w.ctx.queryEscape "",
             Path := if s.Options.Path = "" then "/" else s.Options.Path,
             Domain := s.Options.Domain, MaxAge := -1, Secure := s.Options.Secure,
             HttpOnly := s.Options.HttpOnly, Expires := none }]
       else w.ctx.response) := by
    simp only [Delete, NewCookie, newCookieFromOptions, SetCookieToContext, Context.SetCookie]
    split_ifs <;> simp_all
  refine ⟨?_, hresp, ?_, ?_, ?_, ?_, ?_⟩
  · simp [NewCookie, newCookieFromOptions]
  · intro c hc
    rw [hresp] at hc
    by_cases hv : w.ctx.validCookieName s.name = true
    · rw [if_pos hv] at hc
      rcases List.mem_append.1 hc with hc | hc
      · exact Or.inl hc
      · right
        rw [List.mem_singleton.1 hc]
    · rw [if_neg hv] at hc
      exact Or.inl hc
  · simp [Delete, clearValues_eq_nil]
  · simp [Delete]
  · simp [Delete]
  · simp [Delete]

/-! ## New and load -/

theorem load_fails_iff {DB : Type} (m : MySQLStore DB) (s : Session) (w : World DB) :
    (load m s w).1 ≠ none ↔
      (∃ e, m.stmtSelect w.db s.ID = .error e) ∨
      (∃ row, m.stmtSelect w.db s.ID = .ok row ∧
        (timeSub row.expiresOn (w.clock.reading w.clock.tick) < 0 ∨
         ∃ e, m.decodeValues s.name row.data s.Values = .error e)) := by
  unfold load
  cases hsel : m.stmtSelect w.db s.ID with
  | error e => simp
  | ok row =>
    by_cases hexp : timeSub row.expiresOn (w.clock.reading w.clock.tick) < 0
    · simp [Clock.now, hexp]
    · cases hdec : m.decodeValues s.name row.data s.Values with
      | error e => simp [Clock.now, hexp, hdec]
      | ok values => simp [Clock.now, hexp, hdec]

/-- C2, counterexample: with a request cookie that the codecs refuse, `New`
returns the decode error to its caller (next to a session with `IsNew = true`
and an empty ID). -/
theorem New_surfaces_decode_error :
    (New demoStore (demoWorld 0 (fun _ => some "garbage")) "auth").2.1 =
      some "securecookie: the value is not valid" ∧
    (New demoStore (demoWorld 0 (fun _ => some "garbage")) "auth").1.IsNew = true ∧
    (New demoStore (demoWorld 0 (fun _ => some "garbage")) "auth").1.ID = "" := by
  refine ⟨?_, ?_, ?_⟩ <;> rfl

/-- C2, amended: `New` returns a nil error when the cookie is absent and when
the cookie decodes, whether or not `load` then succeeds; after a decoded cookie
the session has `IsNew = true` exactly when load fails, that is when the row is
absent, expired, or its blob cannot be decoded.  When decoding the cookie value
fails, `New` returns the decode error itself, with the untouched new session
(`IsNew = true`).  So `New` returns an error exactly when the cookie is present
and its decoding fails. -/
theorem New_error_cases {DB : Type} (m : MySQLStore DB) (w : World DB) (name : String) :
    (freshSession m name).IsNew = true ∧
    (w.ctx.Cookie name = none → New m w name = (freshSession m name, none, w)) ∧
    (∀ cook err, w.ctx.Cookie name = some cook → m.decodeID name cook = .error err →
      New m w name = (freshSession m name, some err, w)) ∧
    (∀ cook id, w.ctx.Cookie name = some cook → m.decodeID name cook = .ok id →
      (New m w name).2.1 = none ∧
      ((New m w name).1.IsNew = true ↔
        (∃ e, m.stmtSelect w.db id = .error e) ∨
        (∃ row, m.stmtSelect w.db id = .ok row ∧
          (timeSub row.expiresOn (w.clock.reading w.clock.tick) < 0 ∨
           ∃ e, m.decodeValues name row.data [] = .error e)))) ∧
    ((New m w name).2.1 ≠ none ↔
      ∃ cook err, w.ctx.Cookie name = some cook ∧ m.decodeID name cook = .error err) := by
  refine ⟨rfl, ?_, ?_, ?_, ?_⟩
  · intro h; simp [New, h]
  · intro cook err h hd; simp [New, h, hd]
  · intro cook id h hd
    cases hsel : m.stmtSelect w.db id with
    | error e => simp [New, load, h, hd, hsel, freshSession, NewSession]
    | ok row =>
      by_cases hexp : timeSub row.expiresOn (w.clock.reading w.clock.tick) < 0
      · simp [New, load, h, hd, hsel, freshSession, NewSession, Clock.now, hexp]
      · cases hdec : m.decodeValues name row.data [] with
        | error e =>
          simp [New, load, h, hd, hsel, freshSession, NewSession, Clock.now, hexp, hdec]
        | ok values =>
          simp [New, load, h, hd, hsel, freshSession, NewSession, Clock.now, hexp, hdec]
  · cases h : w.ctx.Cookie name with
    | none => simp [New, h]
    | some cook =>
      cases hd : m.decodeID name cook with
      | error err => simp [New, h, hd]
      | ok id =>
        rcases hrun : load m { freshSession m name with ID := id } w with ⟨r, s1, w1⟩
        cases r <;> simp [New, h, hd, hrun]

/-- Instance of `New_error_cases`: the cookie decodes to `7` and the table is
empty, so load fails; `New` returns a nil error and a session with
`IsNew = true`. -/
theorem New_error_cases_witness :
    (demoWorld 0 (fun _ => some "7")).ctx.Cookie "auth" = some "7" ∧
    demoStore.decodeID "auth" "7" = .ok "7" ∧
    (New demoStore (demoWorld 0 (fun _ => some "7")) "auth").2.1 = none ∧
    (New demoStore (demoWorld 0 (fun _ => some "7")) "auth").1.IsNew = true :=
  ⟨rfl, rfl,
   ((New_error_cases demoStore (demoWorld 0 (fun _ => some "7")) "auth").2.2.2.1
      "7" "7" rfl rfl).1,
   ((New_error_cases demoStore (demoWorld 0 (fun _ => some "7")) "auth").2.2.2.1
      "7" "7" rfl rfl).2.2 (Or.inl ⟨"sql: no rows in result set", rfl⟩)⟩

/-! ## insert, save and Save: what a returning call has done -/

theorem insert_ok {DB : Type} (m : MySQLStore DB) (s : Session) (w : World DB)
    (r : Option String) (s1 : Session) (w1 : World DB)
    (h : insert m s w = .ok (r, s1, w1)) :
    ∃ c clock1 e clock2,
      createdOnOf (mapGet s.Values createdOnKey) w.clock = .ok (c, clock1) ∧
      insertExpiresOn (mapGet s.Values expiresOnKey) s.Options.MaxAge clock1 =
        .ok (e, clock2) ∧
      w1.clock = clock2 ∧ w1.ctx = w.ctx ∧
      s1 = { s with Values := stripReserved s.Values, ID := s1.ID } ∧
      ((∃ err, m.encodeValues s.name (stripReserved s.Values) = .error err ∧
          r = some err ∧ s1.ID = s.ID ∧ w1.trace = w.trace ∧ w1.db = w.db) ∨
       (∃ data, m.encodeValues s.name (stripReserved s.Values) = .ok data ∧
          w1.trace = w.trace ++ [Stmt.insert data c c e] ∧
          w1.db = (m.stmtInsert w.db data c c e).1 ∧
          ((∃ err, (m.stmtInsert w.db data c c e).2 = .error err ∧
              r = some err ∧ s1.ID = s.ID) ∨
           (∃ err, (m.stmtInsert w.db data c c e).2 = .ok (.error err) ∧
              r = some err ∧ s1.ID = s.ID) ∨
           (∃ n, (m.stmtInsert w.db data c c e).2 = .ok (.ok n) ∧
              r = none ∧ s1.ID = toString n)))) := by
  unfold insert at h
  cases hc : createdOnOf (mapGet s.Values createdOnKey) w.clock with
  | error p => simp [hc] at h
  | ok cc =>
    obtain ⟨c, clock1⟩ := cc
    cases he : insertExpiresOn (mapGet s.Values expiresOnKey) s.Options.MaxAge clock1 with
    | error p => simp [hc, he] at h
    | ok ee =>
      obtain ⟨e, clock2⟩ := ee
      refine ⟨c, clock1, e, clock2, rfl, he, ?_⟩
      cases henc : m.encodeValues s.name (stripReserved s.Values) with
      | error err =>
        simp only [hc, he, henc, Except.ok.injEq, Prod.mk.injEq] at h
        obtain ⟨rfl, rfl, rfl⟩ := h
        exact ⟨rfl, rfl, rfl, Or.inl ⟨err, rfl, rfl, rfl, rfl, rfl⟩⟩
      | ok data =>
        rcases hins : m.stmtInsert w.db data c c e with ⟨db1, res⟩
        simp only [hc, he, henc, hins] at h
        rcases res with insErr | (lInsErr | n)
        · simp only [Except.ok.injEq, Prod.mk.injEq] at h
          obtain ⟨rfl, rfl, rfl⟩ := h
          exact ⟨rfl, rfl, rfl, Or.inr ⟨data, rfl, rfl, by rw [hins], Or.inl ⟨insErr, by rw [hins], rfl, rfl⟩⟩⟩
        · simp only [Except.ok.injEq, Prod.mk.injEq] at h
          obtain ⟨rfl, rfl, rfl⟩ := h
          exact ⟨rfl, rfl, rfl, Or.inr ⟨data, rfl, rfl, by rw [hins],
            Or.inr (Or.inl ⟨lInsErr, by rw [hins], rfl, rfl⟩)⟩⟩
        · simp only [Except.ok.injEq, Prod.mk.injEq] at h
          obtain ⟨rfl, rfl, rfl⟩ := h
          exact ⟨rfl, rfl, rfl, Or.inr ⟨data, rfl, rfl, by rw [hins],
            Or.inr (Or.inr ⟨n, by rw [hins], rfl, rfl⟩)⟩⟩

theorem update_ok {DB : Type} (m : MySQLStore DB) (s : Session) (w : World DB)
    (r : Option String) (s1 : Session) (w1 : World DB)
    (h : update m s w = .ok (r, s1, w1)) :
    ∃ c clock1 e clock2,
      createdOnOf (mapGet s.Values createdOnKey) w.clock = .ok (c, clock1) ∧
      saveExpiresOn (mapGet s.Values expiresOnKey) s.Options.MaxAge clock1 =
        .ok (e, clock2) ∧
      w1.clock = clock2 ∧ w1.ctx = w.ctx ∧
      s1 = { s with Values := stripReserved s.Values } ∧
      ((∃ err, m.encodeValues s.name (stripReserved s.Values) = .error err ∧
          r = some err ∧ w1.trace = w.trace ∧ w1.db = w.db) ∨
       (∃ data, m.encodeValues s.name (stripReserved s.Values) = .ok data ∧
          w1.trace = w.trace ++ [Stmt.update data c e s.ID] ∧
          w1.db = (m.stmtUpdate w.db data c e s.ID).1 ∧
          r = (m.stmtUpdate w.db data c e s.ID).2)) := by
  unfold update at h
  cases hc : createdOnOf (mapGet s.Values createdOnKey) w.clock with
  | error p => simp [hc] at h
  | ok cc =>
    obtain ⟨c, clock1⟩ := cc
    cases he : saveExpiresOn (mapGet s.Values expiresOnKey) s.Options.MaxAge clock1 with
    | error p => simp [hc, he] at h
    | ok ee =>
      obtain ⟨e, clock2⟩ := ee
      refine ⟨c, clock1, e, clock2, rfl, he, ?_⟩
      cases henc : m.encodeValues s.name (stripReserved s.Values) with
      | error err =>
        simp only [hc, he, henc, Except.ok.injEq, Prod.mk.injEq] at h
        obtain ⟨rfl, rfl, rfl⟩ := h
        exact ⟨rfl, rfl, rfl, Or.inl ⟨err, rfl, rfl, rfl, rfl⟩⟩
      | ok data =>
        simp only [hc, he, henc, Except.ok.injEq, Prod.mk.injEq] at h
        obtain ⟨rfl, rfl, rfl⟩ := h
        exact ⟨rfl, rfl, rfl, Or.inr ⟨data, rfl, rfl, rfl, rfl⟩⟩

theorem Save_ok {DB : Type} (m : MySQLStore DB) (s : Session) (w : World DB)
    (r : Option String) (s1 : Session) (w1 : World DB)
    (h : Save m s w = .ok (r, s1, w1)) :
    ∃ r0 w0,
      (if s.ID = "" then insert m s w else save m s w) = .ok (r0, s1, w0) ∧
      w1.trace = w0.trace ∧ w1.db = w0.db ∧
      ((∃ err, r0 = some err ∧ r = some err ∧ w1 = w0) ∨
       (∃ err, r0 = none ∧ m.encodeID s1.name s1.ID = .error err ∧ r = some err ∧ w1 = w0) ∨
       (∃ encoded, r0 = none ∧ m.encodeID s1.name s1.ID = .ok encoded ∧ r = none ∧
          w1.clock = (NewCookie s1.name encoded s1.Options w0.clock).2 ∧
          w1.ctx = SetCookieToContext w0.ctx
            (NewCookie s1.name encoded s1.Options w0.clock).1)) := by
  unfold Save at h
  cases hi : (if s.ID = "" then insert m s w else save m s w) with
  | error p => simp [hi] at h
  | ok res =>
    obtain ⟨r0, s0, w0⟩ := res
    cases r0 with
    | some err =>
      simp only [hi, Except.ok.injEq, Prod.mk.injEq] at h
      obtain ⟨rfl, rfl, rfl⟩ := h
      exact ⟨some err, _, rfl, rfl, rfl, Or.inl ⟨err, rfl, rfl, rfl⟩⟩
    | none =>
      cases henc : m.encodeID s0.name s0.ID with
      | error err =>
        simp only [hi, henc, Except.ok.injEq, Prod.mk.injEq] at h
        obtain ⟨rfl, rfl, rfl⟩ := h
        exact ⟨none, _, rfl, rfl, rfl, Or.inr (Or.inl ⟨err, rfl, henc, rfl, rfl⟩)⟩
      | ok encoded =>
        simp only [hi, henc, Except.ok.injEq, Prod.mk.injEq] at h
        obtain ⟨rfl, rfl, rfl⟩ := h
        exact ⟨none, w0, rfl, rfl, rfl, Or.inr (Or.inr ⟨encoded, rfl, henc, rfl, rfl, rfl⟩)⟩

/-! ## Time arithmetic -/

theorem timeSub_neg_iff (t u : Time) : timeSub t u < 0 ↔ t < u := by
  unfold timeSub minDuration maxDuration
  simp only [Time] at *
  split_ifs <;> constructor <;> intro _ <;> omega

theorem secondsDuration_eq (M : Int) (h1 : -9223372036 ≤ M) (h2 : M ≤ 9223372036) :
    secondsDuration M = M * 1000000000 := by
  unfold secondsDuration wrap64
  omega

theorem createdOnOf_spec (v : Value) (clock : Clock) (now : Time)
    (hclock : ∀ i, clock.reading (clock.tick + i) = now) (c : Time) (clock1 : Clock)
    (h : createdOnOf v clock = .ok (c, clock1)) :
    c = explicitTime v now ∧ ∀ i, clock1.reading (clock1.tick + i) = now := by
  cases v with
  | nil =>
    simp only [createdOnOf, Clock.now, Except.ok.injEq, Prod.mk.injEq] at h
    obtain ⟨rfl, rfl⟩ := h
    refine ⟨by simpa using hclock 0, fun i => ?_⟩
    have := hclock (1 + i)
    simpa [Nat.add_assoc] using this
  | time t =>
    simp only [createdOnOf, Except.ok.injEq, Prod.mk.injEq] at h
    obtain ⟨rfl, rfl⟩ := h
    exact ⟨rfl, hclock⟩
  | str x => simp [createdOnOf] at h
  | int x => simp [createdOnOf] at h

theorem insertExpiresOn_spec (v : Value) (M : Int) (clock : Clock) (now : Time)
    (hclock : ∀ i, clock.reading (clock.tick + i) = now) (e : Time) (clock1 : Clock)
    (h : insertExpiresOn v M clock = .ok (e, clock1)) :
    e = explicitTime v (now + secondsDuration M) := by
  cases v with
  | nil =>
    simp only [insertExpiresOn, Clock.now, Except.ok.injEq, Prod.mk.injEq] at h
    obtain ⟨rfl, rfl⟩ := h
    simpa [explicitTime, timeAdd] using hclock 0
  | time t =>
    simp only [insertExpiresOn, Except.ok.injEq, Prod.mk.injEq] at h
    obtain ⟨rfl, rfl⟩ := h
    rfl
  | str x => simp [insertExpiresOn] at h
  | int x => simp [insertExpiresOn] at h

theorem saveExpiresOn_spec (v : Value) (M : Int) (clock : Clock) (now : Time)
    (hclock : ∀ i, clock.reading (clock.tick + i) = now) (e : Time) (clock1 : Clock)
    (h : saveExpiresOn v M clock = .ok (e, clock1)) :
    e = extendedTime v (now + secondsDuration M) := by
  have h0 : clock.reading clock.tick = now := by simpa using hclock 0
  have h1 : clock.reading (clock.tick + 1) = now := hclock 1
  cases v with
  | nil =>
    simp only [saveExpiresOn, Clock.now, Except.ok.injEq, Prod.mk.injEq] at h
    obtain ⟨rfl, rfl⟩ := h
    simp [extendedTime, timeAdd, h0]
  | time t =>
    simp only [saveExpiresOn, Clock.now, timeSub_neg_iff, timeAdd, h0, h1] at h
    by_cases hlt : t < now + secondsDuration M
    · simp only [hlt, if_true, Except.ok.injEq, Prod.mk.injEq] at h
      obtain ⟨rfl, rfl⟩ := h
      simp [extendedTime, max_eq_right (le_of_lt hlt)]
    · simp only [hlt, if_false, Except.ok.injEq, Prod.mk.injEq] at h
      obtain ⟨rfl, rfl⟩ := h
      simp [extendedTime, max_eq_left (not_lt.1 hlt)]
  | str x => simp [saveExpiresOn] at h
  | int x => simp [saveExpiresOn] at h

theorem createdOnOf_returns (v : Value) (clock : Clock) (h : isTimeOrNil v = true) :
    ∃ res, createdOnOf v clock = .ok res := by
  cases v <;> simp [createdOnOf, isTimeOrNil] at h ⊢

theorem insertExpiresOn_returns (v : Value) (M : Int) (clock : Clock)
    (h : isTimeOrNil v = true) : ∃ res, insertExpiresOn v M clock = .ok res := by
  cases v <;> simp [insertExpiresOn, isTimeOrNil] at h ⊢

theorem saveExpiresOn_returns (v : Value) (M : Int) (clock : Clock)
    (h : isTimeOrNil v = true) : ∃ res, saveExpiresOn v M clock = .ok res := by
  cases v with
  | nil => simp [saveExpiresOn]
  | time t =>
    simp only [saveExpiresOn]
    split_ifs <;> simp
  | str x => simp [isTimeOrNil] at h
  | int x => simp [isTimeOrNil] at h

theorem insert_returns {DB : Type} (m : MySQLStore DB) (s : Session) (w : World DB)
    (hc : isTimeOrNil (mapGet s.Values createdOnKey) = true)
    (he : isTimeOrNil (mapGet s.Values expiresOnKey) = true) :
    ∃ res, insert m s w = .ok res := by
  obtain ⟨⟨c, clock1⟩, h1⟩ := createdOnOf_returns _ w.clock hc
  obtain ⟨⟨e, clock2⟩, h2⟩ := insertExpiresOn_returns _ s.Options.MaxAge clock1 he
  unfold insert
  cases henc : m.encodeValues s.name (stripReserved s.Values) with
  | error err => simp only [h1, h2, henc]; exact ⟨_, rfl⟩
  | ok data =>
    rcases hins : m.stmtInsert w.db data c c e with ⟨db1, res⟩
    rcases res with insErr | (lInsErr | n) <;> simp only [h1, h2, henc, hins] <;>
      exact ⟨_, rfl⟩

theorem update_returns {DB : Type} (m : MySQLStore DB) (s : Session) (w : World DB)
    (hc : isTimeOrNil (mapGet s.Values createdOnKey) = true)
    (he : isTimeOrNil (mapGet s.Values expiresOnKey) = true) :
    ∃ res, update m s w = .ok res := by
  obtain ⟨⟨c, clock1⟩, h1⟩ := createdOnOf_returns _ w.clock hc
  obtain ⟨⟨e, clock2⟩, h2⟩ := saveExpiresOn_returns _ s.Options.MaxAge clock1 he
  unfold update
  cases henc : m.encodeValues s.name (stripReserved s.Values) with
  | error err => simp only [h1, h2, henc]; exact ⟨_, rfl⟩
  | ok data => simp only [h1, h2, henc]; exact ⟨_, rfl⟩

/-! ## insert: the row written -/

/-- C10, counterexample: a new session with an explicit `created_on` at the
epoch and `MaxAge = 10`, inserted at a time 100 seconds after the epoch, gets
`expires_on` 110 seconds after the epoch (now + 10 s), not 10 seconds after it
(`created_on` + 10 s). -/
theorem insert_expiry_counts_from_now :
    ∃ r s1 w1,
      insert demoStore backdatedSession (demoWorld 100000000000 (fun _ => none)) =
        .ok (r, s1, w1) ∧
      w1.trace = [Stmt.insert "" 0 0 110000000000] ∧
      (110000000000 : Int) ≠ 0 + 10 * 1000000000 :=
  ⟨_, _, _, rfl, rfl, by decide⟩

/-- C10, amended: for a session inserted while the clock reads `now`, with
`Options.MaxAge = M`: the insert statement, when `insert` gets to execute it,
is given `created_on` = `Values["created_on"]` when that holds a time and `now`
when it is nil or absent, `modified_on` = `created_on`, and `expires_on` =
`Values["expires_on"]` when that holds a time and otherwise `now` plus the
duration `time.Second * time.Duration(M)` (counted from `now`, not from
`created_on`), which is `M` seconds whenever `|M| ≤ 9223372036`.  Whenever
`insert` returns, the `Values` map has lost the three reserved keys and kept
every other entry; it returns whenever the two reserved values read are times
or nil. -/
theorem insert_row_times {DB : Type} (m : MySQLStore DB) (s : Session) (w : World DB)
    (now : Time) (hclock : ∀ i, w.clock.reading (w.clock.tick + i) = now) :
    (isTimeOrNil (mapGet s.Values createdOnKey) = true →
      isTimeOrNil (mapGet s.Values expiresOnKey) = true →
      ∃ res, insert m s w = .ok res) ∧
    (∀ r s1 w1, insert m s w = .ok (r, s1, w1) →
      (∀ k, s1.Values.lookup k =
        if k = createdOnKey ∨ k = expiresOnKey ∨ k = modifiedOnKey then none
        else s.Values.lookup k) ∧
      ((r ≠ none ∧ w1.trace = w.trace) ∨
       ∃ data, w1.trace = w.trace ++
         [Stmt.insert data
           (explicitTime (mapGet s.Values createdOnKey) now)
           (explicitTime (mapGet s.Values createdOnKey) now)
           (explicitTime (mapGet s.Values expiresOnKey)
             (now + secondsDuration s.Options.MaxAge))])) ∧
    (-9223372036 ≤ s.Options.MaxAge → s.Options.MaxAge ≤ 9223372036 →
      secondsDuration s.Options.MaxAge = s.Options.MaxAge * 1000000000) := by
  refine ⟨insert_returns m s w, ?_, secondsDuration_eq _⟩
  intro r s1 w1 h
  obtain ⟨c, clock1, e, clock2, hc, he, -, -, hs1, hrest⟩ := insert_ok m s w r s1 w1 h
  obtain ⟨hc1, hclock1⟩ := createdOnOf_spec _ _ now hclock c clock1 hc
  have he1 := insertExpiresOn_spec _ _ _ now hclock1 e clock2 he
  refine ⟨?_, ?_⟩
  · intro k
    rw [hs1]
    exact lookup_stripReserved s.Values k
  · rcases hrest with ⟨err, -, hr, -, ht, -⟩ | ⟨data, -, ht, -, -⟩
    · exact Or.inl ⟨by simp [hr], ht⟩
    · exact Or.inr ⟨data, by rw [ht, hc1, he1]⟩

/-- Instance of `insert_row_times`: a session never saved, on a clock that
always reads 0. -/
theorem insert_row_times_witness :
    (∀ i, (demoWorld 0 (fun _ => none)).clock.reading
      ((demoWorld 0 (fun _ => none)).clock.tick + i) = 0) ∧
    ∃ res, insert demoStore unsavedSession (demoWorld 0 (fun _ => none)) = .ok res :=
  ⟨fun _ => rfl,
   (insert_row_times demoStore unsavedSession (demoWorld 0 (fun _ => none)) 0
      (fun _ => rfl)).1 rfl rfl⟩

/-! ## save: the expiry written by an update -/

/-- C9, counterexample: a loaded session with `MaxAge = 9223372037` and no
explicit `expires_on`, saved while the clock reads 0: the update writes
`expires_on` = -9223372036709551616 ns, far earlier than now + `MaxAge`
seconds, because `time.Second * time.Duration(MaxAge)` overflows. -/
theorem save_lifetime_overflows :
    ∃ r s1 w1,
      save demoStore longLivedSession (demoWorld 0 (fun _ => none)) = .ok (r, s1, w1) ∧
      w1.trace = [Stmt.update "" 0 (-9223372036709551616) "7"] ∧
      (-9223372036709551616 : Int) < 0 + 9223372037 * 1000000000 :=
  ⟨_, _, _, rfl, rfl, by decide⟩

/-- C9, amended: for a session with `IsNew = false` saved while the clock
reads `now`, with `Options.MaxAge = M` and `d = time.Second * time.Duration(M)`
(which is `M` seconds whenever `|M| ≤ 9223372036`): the update statement, when
`save` gets to execute it, is given as `expires_on` the later of
`Values["expires_on"]` and `now + d` when that value is a time, and `now + d`
when it is nil or absent; so the written `expires_on` is never earlier than
`now + d` nor than the explicit value.  `save` returns whenever the two
reserved values read are times or nil. -/
theorem save_expiry_extended {DB : Type} (m : MySQLStore DB) (s : Session) (w : World DB)
    (now : Time) (hnew : s.IsNew = false)
    (hclock : ∀ i, w.clock.reading (w.clock.tick + i) = now) :
    (isTimeOrNil (mapGet s.Values createdOnKey) = true →
      isTimeOrNil (mapGet s.Values expiresOnKey) = true →
      ∃ res, save m s w = .ok res) ∧
    (∀ r s1 w1, save m s w = .ok (r, s1, w1) →
      (r ≠ none ∧ w1.trace = w.trace) ∨
      ∃ data c, w1.trace = w.trace ++
        [Stmt.update data c
          (extendedTime (mapGet s.Values expiresOnKey)
            (now + secondsDuration s.Options.MaxAge)) s.ID]) ∧
    (now + secondsDuration s.Options.MaxAge ≤
      extendedTime (mapGet s.Values expiresOnKey) (now + secondsDuration s.Options.MaxAge)) ∧
    (∀ t, mapGet s.Values expiresOnKey = Value.time t →
      t ≤ extendedTime (mapGet s.Values expiresOnKey)
        (now + secondsDuration s.Options.MaxAge)) ∧
    (mapGet s.Values expiresOnKey = Value.nil →
      extendedTime (mapGet s.Values expiresOnKey) (now + secondsDuration s.Options.MaxAge) =
        now + secondsDuration s.Options.MaxAge) ∧
    (-9223372036 ≤ s.Options.MaxAge → s.Options.MaxAge ≤ 9223372036 →
      secondsDuration s.Options.MaxAge = s.Options.MaxAge * 1000000000) := by
  have hsave : save m s w = update m s w := by simp [save, hnew]
  refine ⟨?_, ?_, ?_, ?_, ?_, secondsDuration_eq _⟩
  · intro h1 h2
    rw [hsave]
    exact update_returns m s w h1 h2
  · intro r s1 w1 h
    rw [hsave] at h
    obtain ⟨c, clock1, e, clock2, hc, he, -, -, -, hrest⟩ := update_ok m s w r s1 w1 h
    obtain ⟨-, hclock1⟩ := createdOnOf_spec _ _ now hclock c clock1 hc
    have he1 := saveExpiresOn_spec _ _ _ now hclock1 e clock2 he
    rcases hrest with ⟨err, -, hr, ht, -⟩ | ⟨data, -, ht, -, -⟩
    · exact Or.inl ⟨by simp [hr], ht⟩
    · exact Or.inr ⟨data, c, by rw [ht, he1]⟩
  · cases mapGet s.Values expiresOnKey <;> simp [extendedTime]
  · intro t ht
    rw [ht]
    simp [extendedTime]
  · intro h
    rw [h]
    rfl

/-- Instance of `save_expiry_extended`: a loaded session saved on a clock that
always reads 0. -/
theorem save_expiry_extended_witness :
    loadedSession.IsNew = false ∧
    (∀ i, (demoWorld 0 (fun _ => none)).clock.reading
      ((demoWorld 0 (fun _ => none)).clock.tick + i) = 0) ∧
    ∃ res, save demoStore loadedSession (demoWorld 0 (fun _ => none)) = .ok res :=
  ⟨rfl, fun _ => rfl,
   (save_expiry_extended demoStore loadedSession (demoWorld 0 (fun _ => none)) 0 rfl
      (fun _ => rfl)).1 rfl rfl⟩

/-! ## Save: insert or update -/

theorem Save_returns {DB : Type} (m : MySQLStore DB) (s : Session) (w : World DB)
    (hc : isTimeOrNil (mapGet s.Values createdOnKey) = true)
    (he : isTimeOrNil (mapGet s.Values expiresOnKey) = true) :
    ∃ res, Save m s w = .ok res := by
  have h : ∃ res, (if s.ID = "" then insert m s w else save m s w) = .ok res := by
    by_cases hid : s.ID = ""
    · simpa [hid] using insert_returns m s w hc he
    · by_cases hnew : s.IsNew = true
      · simpa [hid, save, hnew] using insert_returns m s w hc he
      · simpa [hid, save, hnew] using update_returns m s w hc he
  obtain ⟨⟨r0, s0, w0⟩, h⟩ := h
  unfold Save
  cases r0 with
  | some err => simp only [h]; exact ⟨_, rfl⟩
  | none =>
    cases henc : m.encodeID s0.name s0.ID with
    | error err => simp only [h, henc]; exact ⟨_, rfl⟩
    | ok encoded => simp only [h, henc]; exact ⟨_, rfl⟩

/-- C7: when the session's ID is empty or its `IsNew` flag is set, a `Save`
that returns has either failed to encode the payload, returning that error with
nothing executed, or executed exactly one statement, the insert of the encoded
payload; when the insert returned the generated identifier `n`, the session's
ID is the decimal string of `n` (and `Save` returns nil unless encoding the ID
for the cookie fails), and otherwise `Save` returns the insert's error and the
ID is unchanged.  When the ID is non-empty and `IsNew` is false, a `Save` that
returns has either failed to encode the payload or executed exactly one
statement, the update of the row whose id is the session's ID, and the ID is
unchanged in every case.  `Save` returns whenever the two reserved values it
reads are times or nil; so whenever these are times or nil and the payload
encodes, `Save` performs the insert, respectively the update. -/
theorem Save_inserts_or_updates {DB : Type} (m : MySQLStore DB) (s : Session)
    (w : World DB) :
    ((s.ID = "" ∨ s.IsNew = true) →
      ∀ r s1 w1, Save m s w = .ok (r, s1, w1) →
        (∃ err, m.encodeValues s.name (stripReserved s.Values) = .error err ∧
          r = some err ∧ s1.ID = s.ID ∧ w1.trace = w.trace ∧ w1.db = w.db) ∨
        (∃ data c e, m.encodeValues s.name (stripReserved s.Values) = .ok data ∧
          w1.trace = w.trace ++ [Stmt.insert data c c e] ∧
          w1.db = (m.stmtInsert w.db data c c e).1 ∧
          ((∃ err, (m.stmtInsert w.db data c c e).2 = .error err ∧
              r = some err ∧ s1.ID = s.ID) ∨
           (∃ err, (m.stmtInsert w.db data c c e).2 = .ok (.error err) ∧
              r = some err ∧ s1.ID = s.ID) ∨
           (∃ n, (m.stmtInsert w.db data c c e).2 = .ok (.ok n) ∧ s1.ID = toString n ∧
              (r = none ∨
               ∃ err, m.encodeID s.name (toString n) = .error err ∧ r = some err))))) ∧
    ((s.ID ≠ "" ∧ s.IsNew = false) →
      ∀ r s1 w1, Save m s w = .ok (r, s1, w1) →
        s1.ID = s.ID ∧
        ((∃ err, m.encodeValues s.name (stripReserved s.Values) = .error err ∧
            r = some err ∧ w1.trace = w.trace ∧ w1.db = w.db) ∨
         (∃ data c e, m.encodeValues s.name (stripReserved s.Values) = .ok data ∧
            w1.trace = w.trace ++ [Stmt.update data c e s.ID] ∧
            w1.db = (m.stmtUpdate w.db data c e s.ID).1 ∧
            ((∃ err, (m.stmtUpdate w.db data c e s.ID).2 = some err ∧ r = some err) ∨
             ((m.stmtUpdate w.db data c e s.ID).2 = none ∧
                (r = none ∨
                 ∃ err, m.encodeID s.name s.ID = .error err ∧ r = some err)))))) ∧
    (isTimeOrNil (mapGet s.Values createdOnKey) = true →
      isTimeOrNil (mapGet s.Values expiresOnKey) = true →
      ∃ res, Save m s w = .ok res) ∧
    ((s.ID = "" ∨ s.IsNew = true) →
      isTimeOrNil (mapGet s.Values createdOnKey) = true →
      isTimeOrNil (mapGet s.Values expiresOnKey) = true →
      ∀ data, m.encodeValues s.name (stripReserved s.Values) = .ok data →
      ∃ r s1 w1 c e, Save m s w = .ok (r, s1, w1) ∧
        w1.trace = w.trace ++ [Stmt.insert data c c e]) ∧
    ((s.ID ≠ "" ∧ s.IsNew = false) →
      isTimeOrNil (mapGet s.Values createdOnKey) = true →
      isTimeOrNil (mapGet s.Values expiresOnKey) = true →
      ∀ data, m.encodeValues s.name (stripReserved s.Values) = .ok data →
      ∃ r s1 w1 c e, Save m s w = .ok (r, s1, w1) ∧
        w1.trace = w.trace ++ [Stmt.update data c e s.ID]) := by
  have hA : (s.ID = "" ∨ s.IsNew = true) →
      ∀ r s1 w1, Save m s w = .ok (r, s1, w1) →
        (∃ err, m.encodeValues s.name (stripReserved s.Values) = .error err ∧
          r = some err ∧ s1.ID = s.ID ∧ w1.trace = w.trace ∧ w1.db = w.db) ∨
        (∃ data c e, m.encodeValues s.name (stripReserved s.Values) = .ok data ∧
          w1.trace = w.trace ++ [Stmt.insert data c c e] ∧
          w1.db = (m.stmtInsert w.db data c c e).1 ∧
          ((∃ err, (m.stmtInsert w.db data c c e).2 = .error err ∧
              r = some err ∧ s1.ID = s.ID) ∨
           (∃ err, (m.stmtInsert w.db data c c e).2 = .ok (.error err) ∧
              r = some err ∧ s1.ID = s.ID) ∨
           (∃ n, (m.stmtInsert w.db data c c e).2 = .ok (.ok n) ∧ s1.ID = toString n ∧
              (r = none ∨
               ∃ err, m.encodeID s.name (toString n) = .error err ∧ r = some err)))) := by
    intro hcase r s1 w1 h
    obtain ⟨r0, w0, hi, ht, hdb, hfin⟩ := Save_ok m s w r s1 w1 h
    have hins : insert m s w = .ok (r0, s1, w0) := by
      rcases hcase with hid | hnew
      · simpa [hid] using hi
      · by_cases hid : s.ID = ""
        · simpa [hid] using hi
        · simpa [hid, save, hnew] using hi
    obtain ⟨c, clock1, e, clock2, -, -, -, -, hs1, hrest⟩ := insert_ok m s w r0 s1 w0 hins
    have hname : s1.name = s.name := by rw [hs1]
    have hfail : ∀ err, r0 = some err → r = some err := by
      intro err hr0
      rcases hfin with ⟨err1, h0, hr, -⟩ | ⟨err1, h0, -⟩ | ⟨enc, h0, -⟩
      · rw [hr, ← h0, hr0]
      · rw [hr0] at h0; cases h0
      · rw [hr0] at h0; cases h0
    rcases hrest with ⟨err, henc, hr0, hid, htr, hd⟩ | ⟨data, henc, htr, hd, hres⟩
    · exact Or.inl ⟨err, henc, hfail err hr0, hid, by rw [ht, htr], by rw [hdb, hd]⟩
    · right
      refine ⟨data, c, e, henc, by rw [ht, htr], by rw [hdb, hd], ?_⟩
      rcases hres with ⟨err, hx, hr0, hid⟩ | ⟨err, hx, hr0, hid⟩ | ⟨n, hx, hr0, hid⟩
      · exact Or.inl ⟨err, hx, hfail err hr0, hid⟩
      · exact Or.inr (Or.inl ⟨err, hx, hfail err hr0, hid⟩)
      · refine Or.inr (Or.inr ⟨n, hx, hid, ?_⟩)
        rcases hfin with ⟨err1, h0, -⟩ | ⟨err1, -, hencid, hr, -⟩ | ⟨enc, -, -, hr, -⟩
        · rw [hr0] at h0; cases h0
        · right
          rw [hname, hid] at hencid
          exact ⟨err1, hencid, hr⟩
        · exact Or.inl hr
  have hB : (s.ID ≠ "" ∧ s.IsNew = false) →
      ∀ r s1 w1, Save m s w = .ok (r, s1, w1) →
        s1.ID = s.ID ∧
        ((∃ err, m.encodeValues s.name (stripReserved s.Values) = .error err ∧
            r = some err ∧ w1.trace = w.trace ∧ w1.db = w.db) ∨
         (∃ data c e, m.encodeValues s.name (stripReserved s.Values) = .ok data ∧
            w1.trace = w.trace ++ [Stmt.update data c e s.ID] ∧
            w1.db = (m.stmtUpdate w.db data c e s.ID).1 ∧
            ((∃ err, (m.stmtUpdate w.db data c e s.ID).2 = some err ∧ r = some err) ∨
             ((m.stmtUpdate w.db data c e s.ID).2 = none ∧
                (r = none ∨
                 ∃ err, m.encodeID s.name s.ID = .error err ∧ r = some err))))) := by
    rintro ⟨hid, hnew⟩ r s1 w1 h
    obtain ⟨r0, w0, hi, ht, hdb, hfin⟩ := Save_ok m s w r s1 w1 h
    have hupd : update m s w = .ok (r0, s1, w0) := by
      simpa [hid, save, hnew] using hi
    obtain ⟨c, clock1, e, clock2, -, -, -, -, hs1, hrest⟩ := update_ok m s w r0 s1 w0 hupd
    have hname : s1.name = s.name := by rw [hs1]
    have hsid : s1.ID = s.ID := by rw [hs1]
    have hfail : ∀ err, r0 = some err → r = some err := by
      intro err hr0
      rcases hfin with ⟨err1, h0, hr, -⟩ | ⟨err1, h0, -⟩ | ⟨enc, h0, -⟩
      · rw [hr, ← h0, hr0]
      · rw [hr0] at h0; cases h0
      · rw [hr0] at h0; cases h0
    refine ⟨hsid, ?_⟩
    rcases hrest with ⟨err, henc, hr0, htr, hd⟩ | ⟨data, henc, htr, hd, hr0⟩
    · exact Or.inl ⟨err, henc, hfail err hr0, by rw [ht, htr], by rw [hdb, hd]⟩
    · right
      refine ⟨data, c, e, henc, by rw [ht, htr], by rw [hdb, hd], ?_⟩
      cases hres : (m.stmtUpdate w.db data c e s.ID).2 with
      | some err => exact Or.inl ⟨err, rfl, hfail err (by rw [hr0, hres])⟩
      | none =>
        refine Or.inr ⟨rfl, ?_⟩
        rcases hfin with ⟨err1, h0, -⟩ | ⟨err1, -, hencid, hr, -⟩ | ⟨enc, -, -, hr, -⟩
        · rw [hr0, hres] at h0; cases h0
        · right
          rw [hname, hsid] at hencid
          exact ⟨err1, hencid, hr⟩
        · exact Or.inl hr
  refine ⟨hA, hB, Save_returns m s w, ?_, ?_⟩
  · intro hcase hc he data henc
    obtain ⟨⟨r, s1, w1⟩, hres⟩ := Save_returns m s w hc he
    rcases hA hcase r s1 w1 hres with ⟨err, henc1, -⟩ | ⟨data1, c, e, henc1, htr, -⟩
    · rw [henc] at henc1; cases henc1
    · rw [henc] at henc1
      cases henc1
      exact ⟨r, s1, w1, c, e, hres, htr⟩
  · intro hcase hc he data henc
    obtain ⟨⟨r, s1, w1⟩, hres⟩ := Save_returns m s w hc he
    rcases (hB hcase r s1 w1 hres).2 with ⟨err, henc1, -⟩ | ⟨data1, c, e, henc1, htr, -⟩
    · rw [henc] at henc1; cases henc1
    · rw [henc] at henc1
      cases henc1
      exact ⟨r, s1, w1, c, e, hres, htr⟩

/-- Instance of `Save_inserts_or_updates`: a session never saved, whose
payload encodes, on an empty table; `Save` executes the insert of the encoded
payload. -/
theorem Save_inserts_or_updates_witness :
    (unsavedSession.ID = "" ∨ unsavedSession.IsNew = true) ∧
    isTimeOrNil (mapGet unsavedSession.Values createdOnKey) = true ∧
    isTimeOrNil (mapGet unsavedSession.Values expiresOnKey) = true ∧
    demoStore.encodeValues unsavedSession.name (stripReserved unsavedSession.Values) =
      .ok "uid=42" ∧
    ∃ r s1 w1 c e,
      Save demoStore unsavedSession (demoWorld 0 (fun _ => none)) = .ok (r, s1, w1) ∧
      w1.trace = (demoWorld 0 (fun _ => none)).trace ++ [Stmt.insert "uid=42" c c e] :=
  ⟨Or.inl rfl, rfl, rfl, rfl,
   (Save_inserts_or_updates demoStore unsavedSession (demoWorld 0 (fun _ => none))).2.2.2.1
      (Or.inl rfl) rfl rfl "uid=42" rfl⟩

/-! ## Decimal strings -/

theorem toDigitsCore_ne_nil (b : Nat) (fuel n : Nat) (ds : List Char) (h : ds ≠ []) :
    Nat.toDigitsCore b fuel n ds ≠ [] := by
  induction fuel generalizing n ds with
  | zero => simpa [Nat.toDigitsCore] using h
  | succ fuel ih =>
    simp only [Nat.toDigitsCore]
    split_ifs
    · simp
    · exact ih _ _ (by simp)

theorem toDigits_ne_nil (b n : Nat) : Nat.toDigits b n ≠ [] := by
  simp only [Nat.toDigits, Nat.toDigitsCore]
  split_ifs
  · simp
  · exact toDigitsCore_ne_nil _ _ _ _ (by simp)

theorem natRepr_ne_empty (n : Nat) : Nat.repr n ≠ "" := by
  intro h
  have h1 : (Nat.repr n).data = [] := by rw [h]
  exact toDigits_ne_nil 10 n (by simpa [Nat.repr, List.asString] using h1)

theorem toString_int_ne_empty (n : Int) : toString n ≠ "" := by
  cases n with
  | ofNat m => exact natRepr_ne_empty m
  | negSucc m =>
    intro h
    have h1 : ("-" ++ Nat.repr (m + 1)).length = 0 := by
      have : toString (Int.negSucc m) = "-" ++ Nat.repr (m + 1) := rfl
      rw [← this, h]; rfl
    rw [String.length_append] at h1
    have : ("-" : String).length = 1 := rfl
    omega

/-! ## Save followed by New -/

theorem lookup_mapPut (m : Values) (k k1 : Key) (v : Value) :
    (mapPut m k v).lookup k1 = if k1 = k then some v else m.lookup k1 := by
  by_cases h : k1 = k
  · subst h; simp [mapPut, List.lookup]
  · have hne : (k1 == k) = false := by simpa using h
    simp [mapPut, List.lookup, hne, h, lookup_mapDelete]

/-- C3: assume the codecs decode what they encode (identifiers and payloads),
unescaping undoes query-escaping, a row read back by the id the insert
returned is the row inserted, and the stored row has not expired when `New`
runs.  Then for every session with an empty ID and any `Values`, after a
`Save` that returns nil and has set the cookie `c` on the response, `New` on a
request whose cookie for the session's name carries the value of `c`, against
the table as `Save` left it, returns a nil error and a session with
`IsNew = false`, the ID `Save` assigned, and the saved value under every key
other than `created_on`, `modified_on` and `expires_on`. -/
theorem Save_New_round_trip {DB : Type} (m : MySQLStore DB) (s s1 : Session)
    (w w1 w2 : World DB) (c : Cookie)
    (hID : ∀ name id cook, m.encodeID name id = .ok cook → m.decodeID name cook = .ok id)
    (hVal : ∀ name values data, m.encodeValues name values = .ok data →
      m.decodeValues name data [] = .ok values)
    (hesc : ∀ value, w2.ctx.queryUnescape (w.ctx.queryEscape value) = value)
    (hDB : ∀ db data c mo e n, (m.stmtInsert db data c mo e).2 = .ok (.ok n) →
      m.stmtSelect (m.stmtInsert db data c mo e).1 (toString n) =
        .ok { id := toString n, data := data, createdOn := c, modifiedOn := mo,
              expiresOn := e })
    (hfresh : s.ID = "")
    (hsave : Save m s w = .ok (none, s1, w1))
    (hset : w1.ctx.response = w.ctx.response ++ [c])
    (hdb : w2.db = w1.db)
    (hreq : w2.ctx.request s.name = some c.Value)
    (hlive : ∀ row, m.stmtSelect w2.db s1.ID = .ok row →
      ¬ timeSub row.expiresOn (w2.clock.reading w2.clock.tick) < 0) :
    (New m w2 s.name).2.1 = none ∧
    (New m w2 s.name).1.IsNew = false ∧
    (New m w2 s.name).1.ID = s1.ID ∧
    s1.ID ≠ "" ∧
    ∀ k, k ≠ createdOnKey → k ≠ modifiedOnKey → k ≠ expiresOnKey →
      (New m w2 s.name).1.Values.lookup k = s.Values.lookup k := by
  obtain ⟨r0, w0, hi, -, hdb0, hfin⟩ := Save_ok m s w none s1 w1 hsave
  rw [if_pos hfresh] at hi
  rcases hfin with ⟨err, -, hr, -⟩ | ⟨err, -, -, hr, -⟩ | ⟨encoded, hr0, henc, -, -, hctx⟩
  · cases hr
  · cases hr
  subst hr0
  obtain ⟨cr, clock1, e, clock2, -, -, -, hctx0, hs1, hrest⟩ := insert_ok m s w none s1 w0 hi
  have hname : s1.name = s.name := by rw [hs1]
  rcases hrest with ⟨err, -, hr, -⟩ | ⟨data, hencv, -, hd, hres⟩
  · cases hr
  rcases hres with ⟨err, -, hr, -⟩ | ⟨err, -, hr, -⟩ | ⟨n, hn, -, hid⟩
  · cases hr
  · cases hr
  have hval : c.Value = w.ctx.queryEscape encoded := by
    rw [hctx, hctx0] at hset
    simp only [SetCookieToContext, Context.SetCookie] at hset
    by_cases hv : w.ctx.validCookieName (NewCookie s1.name encoded s1.Options w0.clock).1.Name
        = true
    · rw [if_pos hv] at hset
      have hc := List.append_cancel_left hset
      simp only [List.cons.injEq, and_true] at hc
      rw [← hc]
      simp only [NewCookie, newCookieFromOptions]
      split_ifs <;> rfl
    · rw [if_neg hv] at hset
      have hlen := congrArg List.length hset
      simp at hlen
  have hcook : w2.ctx.Cookie s.name = some encoded := by
    simp [Context.Cookie, hreq, hval, hesc]
  have hdec : m.decodeID s.name encoded = .ok s1.ID := by
    apply hID
    rw [← hname]
    exact henc
  have hsel : m.stmtSelect w2.db s1.ID =
      .ok { id := toString n, data := data, createdOn := cr, modifiedOn := cr,
            expiresOn := e } := by
    rw [hdb, hdb0, hd, hid]
    exact hDB _ _ _ _ _ _ hn
  have hnot := hlive _ hsel
  have hdv := hVal _ _ _ hencv
  refine ⟨?_, ?_, ?_, ?_, ?_⟩
  · simp [New, load, hcook, hdec, hsel, Clock.now, hnot, freshSession, NewSession, hdv]
  · simp [New, load, hcook, hdec, hsel, Clock.now, hnot, freshSession, NewSession, hdv]
  · simp [New, load, hcook, hdec, hsel, Clock.now, hnot, freshSession, NewSession, hdv]
  · rw [hid]; exact toString_int_ne_empty n
  · intro k h1 h2 h3
    simp [New, load, hcook, hdec, hsel, Clock.now, hnot, freshSession, NewSession, hdv,
      lookup_mapPut, h1, h2, h3, lookup_stripReserved]

theorem demoStore_decodes_ID (name id cook : String)
    (h : demoStore.encodeID name id = .ok cook) : demoStore.decodeID name cook = .ok id := by
  simp only [demoStore] at h ⊢
  split_ifs at h with hg
  cases h
  simp [hg]

theorem demoStore_decodes_Values (name : String) (values : Values) (data : String)
    (h : demoStore.encodeValues name values = .ok data) :
    demoStore.decodeValues name data [] = .ok values := by
  simp only [demoStore] at h ⊢
  split_ifs at h with h1 h2
  · cases h; simp [h1]
  · cases h; simp [h2]

theorem demoStore_reads_back (db : List sessionRow) (data : String) (c mo e : Time) (n : Int)
    (h : (demoStore.stmtInsert db data c mo e).2 = .ok (.ok n)) :
    demoStore.stmtSelect (demoStore.stmtInsert db data c mo e).1 (toString n) =
      .ok { id := toString n, data := data, createdOn := c, modifiedOn := mo,
            expiresOn := e } := by
  simp only [demoStore, demoInsert, Except.ok.injEq] at h
  subst h
  simp [demoStore, demoInsert, demoSelect, toString_int_ne_empty]

theorem demoStore_row_live (row : sessionRow)
    (h : demoStore.stmtSelect nextRequest.db demoSaved.2.1.ID = .ok row) :
    ¬ timeSub row.expiresOn (nextRequest.clock.reading nextRequest.clock.tick) < 0 := by
  have hsel : demoStore.stmtSelect nextRequest.db demoSaved.2.1.ID =
      .ok { id := "1", data := "uid=42", createdOn := 0, modifiedOn := 0,
            expiresOn := 3600000000000 } := rfl
  rw [hsel] at h
  cases h
  decide

/-- Instance of `Save_New_round_trip`: `unsavedSession`, carrying `uid = 42`,
is saved into an empty table, which sets the cookie `auth` with the value `1`;
the next request presents the cookie and `New` returns the session of row 1
with `uid = 42`. -/
theorem Save_New_round_trip_witness :
    unsavedSession.ID = "" ∧
    Save demoStore unsavedSession (demoWorld 0 (fun _ => none)) =
      .ok (none, demoSaved.2.1, demoSaved.2.2) ∧
    demoSaved.2.2.ctx.response = (demoWorld 0 (fun _ => none)).ctx.response ++
      [{ Name := "auth", Value := "1", Path := "/", Domain := "", MaxAge := 3600,
         Secure := false, HttpOnly := false, Expires := none }] ∧
    nextRequest.db = demoSaved.2.2.db ∧
    nextRequest.ctx.request unsavedSession.name = some "1" ∧
    (New demoStore nextRequest "auth").2.1 = none ∧
    (New demoStore nextRequest "auth").1.IsNew = false ∧
    (New demoStore nextRequest "auth").1.ID = "1" ∧
    (New demoStore nextRequest "auth").1.Values.lookup (Key.str "uid") =
      some (Value.int 42) := by
  have h := Save_New_round_trip demoStore unsavedSession demoSaved.2.1
    (demoWorld 0 (fun _ => none)) demoSaved.2.2 nextRequest
    { Name := "auth", Value := "1", Path := "/", Domain := "", MaxAge := 3600,
      Secure := false, HttpOnly := false, Expires := none }
    demoStore_decodes_ID demoStore_decodes_Values (fun _ => rfl) demoStore_reads_back
    rfl rfl rfl rfl rfl demoStore_row_live
  refine ⟨rfl, rfl, rfl, rfl, rfl, h.1, h.2.1, h.2.2.1, ?_⟩
  exact (h.2.2.2.2 (Key.str "uid") (by decide) (by decide) (by decide)).trans rfl

/-! ## The identity of a session -/

end Mysqlstore
